import Mathlib

/-!
Verification of the IronRDP Go proxy against its design document.

The development shallowly embeds the repository's Go code:

* package `tpkt` (frame-boundary detection and frame reading for the
  FastPath / TPKT wire formats) — `FindPduSize`, `ReadFrame`;
* package `rdcleanpath` (the RDCleanPath handshake PDU codec built on Go's
  `encoding/asn1` DER marshaller) — `Pdu`, `Marshal`, `Unmarshal`, `NewResp`;
* package `proxy`'s WebSocket byte-stream adapter — `wsReadWriteCloser.Write`.

Bytes are modelled as `Nat` together with byte-validity hypotheses
(`b < 256`) on theorems; byte streams are `List Nat` consumed from the
front; Go's fallible functions return `Except`.
-/

-- Decidable equality of `Except` results, used to evaluate the model on
-- concrete inputs inside proofs.
deriving instance DecidableEq for Except

namespace Tpkt

/-- Action mirrors the Go `tpkt.Action` enumeration. -/
inductive Action where
  | unknown
  | fastPath
  | x224
  deriving DecidableEq, Repr

/-- PduInfo mirrors Go `tpkt.PduInfo`: the detected action and frame length. -/
structure PduInfo where
  action : Action
  length : Nat
  deriving DecidableEq, Repr

/-- MinHeaderSize mirrors the Go constant: bytes needed to determine the action. -/
def MinHeaderSize : Nat := 1

/-- FastPathMinSize mirrors the Go constant: minimum bytes of a Fast-Path header. -/
def FastPathMinSize : Nat := 2

/-- FastPathLargeSize mirrors the Go constant: bytes of a large Fast-Path header. -/
def FastPathLargeSize : Nat := 3

/-- TPKTHeaderSize mirrors the Go constant: size of the TPKT header. -/
def TPKTHeaderSize : Nat := 4

/-- FindErr enumerates the distinct error values `FindPduSize` can produce:
`insufficientData` is Go's `ErrInsufficientData`, `invalidAction` is
`ErrInvalidAction`, `invalidLength` wraps `ErrInvalidLength`, and
`invalidVersion` is the fresh "invalid TPKT header version" error. -/
inductive FindErr where
  | insufficientData
  | invalidAction
  | invalidLength
  | invalidVersion
  deriving DecidableEq, Repr

/-- FindPduSize mirrors Go `tpkt.FindPduSize`: from the initial bytes of `buf`
determine the action and total size of the next PDU.  The low two bits of the
first byte select the variant; FastPath carries a 7- or 15-bit payload length
in bytes 1(-2); TPKT carries a big-endian total length in bytes 2-3. -/
def FindPduSize (buf : List Nat) : Except FindErr PduInfo :=
  if buf.length < MinHeaderSize then .error .insufficientData
  else
    let fpOutputHeader := buf.getD 0 0
    let actionCode := fpOutputHeader &&& 0b11
    if actionCode = 0x00 then
      if buf.length < FastPathMinSize then .error .insufficientData
      else
        let a := buf.getD 1 0
        if a &&& 0x80 ≠ 0 then
          if buf.length < FastPathLargeSize then .error .insufficientData
          else
            let b := buf.getD 2 0
            let length := ((a &&& 0x7F) <<< 8) ||| b
            if length = 0 then .ok ⟨.fastPath, 0⟩
            else .ok ⟨.fastPath, length⟩
        else
          let length := a
          if length = 0 then .ok ⟨.fastPath, 0⟩
          else .ok ⟨.fastPath, length⟩
    else if actionCode = 0x03 then
      if buf.length < TPKTHeaderSize then .error .insufficientData
      else if buf.getD 0 0 ≠ 0x03 then .error .invalidVersion
      else
        let length := (buf.getD 2 0 <<< 8) ||| buf.getD 3 0
        if length < TPKTHeaderSize then .error .invalidLength
        else .ok ⟨.x224, length⟩
    else .error .invalidAction

/-- IOErr models the two `io` sentinel errors a list-backed reader can produce:
a clean end of stream (`io.EOF`) and a partial read (`io.ErrUnexpectedEOF`).
They are distinct error values, as in Go. -/
inductive IOErr where
  | eof
  | unexpectedEOF
  deriving DecidableEq, Repr

/-- readFull models `io.ReadFull(reader, make([]byte, n))` on a reader backed
by the byte list `s`: it yields the first `n` bytes and the rest of the
stream, fails with `io.EOF` when no byte at all is available, and with
`io.ErrUnexpectedEOF` when only part of the requested bytes are. -/
def readFull (n : Nat) (s : List Nat) : Except IOErr (List Nat × List Nat) :=
  if n ≤ s.length then .ok (s.take n, s.drop n)
  else if s.isEmpty then .error .eof
  else .error .unexpectedEOF

/-- eofToUnexpected models the `if err == io.EOF { return io.ErrUnexpectedEOF }`
conversion `ReadFrame` applies at every read. -/
def eofToUnexpected : IOErr → IOErr
  | .eof => .unexpectedEOF
  | e => e

/-- ReadErr enumerates the error outcomes of `ReadFrame`: an I/O error,
a FastPath header parse failure (wrapped "failed to parse Fast-Path header"),
a TPKT header parse failure (wrapped "failed to parse TPKT header"),
the "invalid TPKT payload size calculated" error, and the unknown-action
error wrapping `ErrInvalidAction`. -/
inductive ReadErr where
  | ioErr (e : IOErr)
  | fpParse (e : FindErr)
  | tpktParse (e : FindErr)
  | invalidPayloadSize
  | invalidAction
  deriving DecidableEq, Repr

/-- ReadFrame mirrors Go `tpkt.ReadFrame`: read exactly one complete RDP frame
from the stream `s`, reading only the bytes that belong to the frame.  It
returns the complete frame (header and payload), the action, and the
remainder of the stream.  Every `io.EOF` from an inner read is converted to
`io.ErrUnexpectedEOF`. -/
def ReadFrame (s : List Nat) : Except ReadErr (List Nat × Action × List Nat) := do
  let (headerBuf, s1) ←
    (readFull MinHeaderSize s).mapError (fun e => .ioErr (eofToUnexpected e))
  let fpOutputHeader := headerBuf.getD 0 0
  let actionCode := fpOutputHeader &&& 0b11
  if actionCode = 0x00 then do
    let (ext1, s2) ←
      (readFull (FastPathMinSize - MinHeaderSize) s1).mapError
        (fun e => .ioErr (eofToUnexpected e))
    let headerBuf1 := headerBuf ++ ext1
    let a := headerBuf1.getD 1 0
    let (headerBuf2, s3) ←
      if a &&& 0x80 ≠ 0 then do
        let (ext2, s3) ← (readFull 1 s2).mapError (fun e => .ioErr (eofToUnexpected e))
        pure (headerBuf1 ++ ext2, s3)
      else pure (headerBuf1, s2)
    let info ← (FindPduSize headerBuf2).mapError .fpParse
    let (payload, s4) ←
      (readFull info.length s3).mapError (fun e => .ioErr (eofToUnexpected e))
    pure (headerBuf2 ++ payload, Action.fastPath, s4)
  else if actionCode = 0x03 then do
    let (ext1, s2) ←
      (readFull (TPKTHeaderSize - MinHeaderSize) s1).mapError
        (fun e => .ioErr (eofToUnexpected e))
    let headerBuf1 := headerBuf ++ ext1
    let info ← (FindPduSize headerBuf1).mapError .tpktParse
    let payloadSize : Int := (info.length : Int) - (TPKTHeaderSize : Int)
    if payloadSize < 0 then throw .invalidPayloadSize
    else do
      let (payload, s3) ←
        if 0 < payloadSize then
          (readFull payloadSize.toNat s2).mapError (fun e => .ioErr (eofToUnexpected e))
        else pure ([], s2)
      pure (headerBuf1 ++ payload, Action.x224, s3)
  else throw .invalidAction

/-- fpHeaderSize states the spec's FastPath header-size rule: 2 bytes, or 3
when the high bit of the second byte is set. -/
def fpHeaderSize (s : List Nat) : Nat :=
  if s.getD 1 0 &&& 0x80 ≠ 0 then 3 else 2

/-- fpLen states the spec's FastPath declared-payload-length rule: the 7-bit
second byte, or the 15-bit value spread over the second and third bytes. -/
def fpLen (s : List Nat) : Nat :=
  if s.getD 1 0 &&& 0x80 ≠ 0 then ((s.getD 1 0 &&& 0x7F) <<< 8) ||| s.getD 2 0
  else s.getD 1 0

/-- tpktLen states the spec's TPKT total-length rule: the big-endian 16-bit
value in bytes 2-3. -/
def tpktLen (s : List Nat) : Nat :=
  (s.getD 2 0 <<< 8) ||| s.getD 3 0

end Tpkt

namespace Tpkt
/-- Incomplete captures the claim's truncation condition: the stream ends
before a complete frame is assembled, i.e. it holds fewer bytes than the
frame's header plus declared length require (for a FastPath first byte,
`fpHeaderSize + fpLen`; for a TPKT first byte, the 4-byte header and then
the declared total length of a valid header). -/
def Incomplete (s : List Nat) : Prop :=
  s.length < 1 ∨
  (1 ≤ s.length ∧ s.getD 0 0 &&& 0b11 = 0 ∧ s.length < fpHeaderSize s + fpLen s) ∨
  (1 ≤ s.length ∧ s.getD 0 0 &&& 0b11 = 3 ∧
    (s.length < 4 ∨ (s.getD 0 0 = 3 ∧ 4 ≤ tpktLen s ∧ s.length < tpktLen s)))


end Tpkt

namespace Proxy

/-- WsError models an opaque error value returned by the underlying
`gorilla/websocket` library call. -/
structure WsError where
  code : Nat
  deriving DecidableEq, Repr

/-- wsReadWriteCloser models the client-side adapter's write path: the
`writeMessage` field is the environment's outcome of
`ws.WriteMessage(websocket.BinaryMessage, p)` for a payload `p` (`none`
means success, `some e` failure). -/
structure wsReadWriteCloser where
  writeMessage : List Nat → Option WsError

/-- Write mirrors Go `wsReadWriteCloser.Write`:
`return len(p), w.ws.WriteMessage(websocket.BinaryMessage, p)` — the
reported count is always `len(p)` regardless of the websocket outcome. -/
def wsReadWriteCloser.Write (w : wsReadWriteCloser) (p : List Nat) :
    Nat × Option WsError :=
  (p.length, w.writeMessage p)

end Proxy

namespace Asn1

/-!
Model of the parts of Go's `encoding/asn1` package exercised by the
`rdcleanpath` codec: DER tag/length parsing, INTEGER, the ASN.1 string
types, OCTET STRING, SEQUENCE OF, explicit context-specific tagging with
optional fields, and the matching DER marshalling.  Buffers are consumed
from the front of a `List Nat`; where Go tracks an offset into a fixed
buffer, this model passes the remaining suffix.
-/

/-- Error enumerates the distinct `SyntaxError`/`StructuralError` values of
`encoding/asn1` that this model can produce, one constructor per Go error
message. -/
inductive Error where
  | truncatedTagOrLength
  | indefiniteLength
  | lengthTooLarge
  | superfluousLeadingZeros
  | nonMinimalLength
  | nonMinimalTag
  | base128TooLarge
  | base128NotMinimal
  | truncatedBase128
  | seqTruncated
  | explicitNoChild
  | zeroLengthExplicit
  | explicitTagMismatch
  | tagsDontMatch
  | dataTruncated
  | emptyInteger
  | integerNotMinimal
  | integerTooLarge
  | seqTagMismatch
  | truncatedSequence
  | invalidPrintable
  | invalidNumeric
  | invalidIA5
  | invalidUTF8
  | oddBMP
  | unknownGoType
  deriving DecidableEq, Repr

/-- TagLen mirrors Go's `tagAndLength`: identifier class, constructed bit,
tag number, and content length. -/
structure TagLen where
  cls : Nat
  compound : Bool
  tag : Nat
  len : Nat
  deriving DecidableEq, Repr

/-- parseBase128Rec mirrors the loop of Go `parseBase128Int` (high-tag-number
form), with `shifted` counting processed bytes and `acc` the accumulator. -/
def parseBase128Rec : Nat → Nat → List Nat → Except Error (Nat × List Nat)
  | _, _, [] => .error .truncatedBase128
  | shifted, acc, b :: rest =>
    if shifted = 5 then .error .base128TooLarge
    else if shifted = 0 ∧ b = 0x80 then .error .base128NotMinimal
    else
      let acc1 := (acc <<< 7) ||| (b &&& 0x7F)
      if b &&& 0x80 = 0 then
        if 2147483647 < acc1 then .error .base128TooLarge else .ok (acc1, rest)
      else parseBase128Rec (shifted + 1) acc1 rest

/-- parseBase128Int mirrors Go `parseBase128Int`. -/
def parseBase128Int (s : List Nat) : Except Error (Nat × List Nat) :=
  parseBase128Rec 0 0 s

/-- parseLongLen mirrors the long-form branch of Go's length parsing: read
`numBytes` big-endian bytes, rejecting indefinite overflows (the
accumulator check caps parseable lengths below 2^31), superfluous leading
zeros, and values that needed no long form. -/
def parseLongLen : Nat → Nat → List Nat → Except Error (Nat × List Nat)
  | 0, acc, s => if acc < 0x80 then .error .nonMinimalLength else .ok (acc, s)
  | _ + 1, _, [] => .error .truncatedTagOrLength
  | numBytes + 1, acc, b :: rest =>
    if 2 ^ 23 ≤ acc then .error .lengthTooLarge
    else if (acc <<< 8) ||| b = 0 then .error .superfluousLeadingZeros
    else parseLongLen numBytes ((acc <<< 8) ||| b) rest

/-- parseLen mirrors the length half of Go `parseTagAndLength`: short form
below 0x80, otherwise the long form with its checks. -/
def parseLen (s : List Nat) : Except Error (Nat × List Nat) :=
  match s with
  | [] => .error .truncatedTagOrLength
  | b :: rest =>
    if b &&& 0x80 = 0 then .ok (b &&& 0x7F, rest)
    else
      let numBytes := b &&& 0x7F
      if numBytes = 0 then .error .indefiniteLength
      else parseLongLen numBytes 0 rest

/-- parseTagAndLength mirrors Go `parseTagAndLength`: split the identifier
byte into class, constructed bit, and tag (with the base-128 high-tag form),
then parse the length. -/
def parseTagAndLength (s : List Nat) : Except Error (TagLen × List Nat) :=
  match s with
  | [] => .error .truncatedTagOrLength
  | b :: rest =>
    let cls := b >>> 6
    let compound := b &&& 0x20 == 0x20
    let tagLow := b &&& 0x1F
    if tagLow = 0x1F then
      match parseBase128Int rest with
      | .error e => .error e
      | .ok (tag, rest1) =>
        if tag < 0x1F then .error .nonMinimalTag
        else
          match parseLen rest1 with
          | .error e => .error e
          | .ok (len, rest2) => .ok (⟨cls, compound, tag, len⟩, rest2)
    else
      match parseLen rest with
      | .error e => .error e
      | .ok (len, rest1) => .ok (⟨cls, compound, tagLow, len⟩, rest1)

/-- isPrintableByte mirrors Go `isPrintable` with its asterisk/ampersand
flags. -/
def isPrintableByte (asterisk ampersand : Bool) (b : Nat) : Bool :=
  (0x61 ≤ b && b ≤ 0x7a) || (0x41 ≤ b && b ≤ 0x5a) || (0x30 ≤ b && b ≤ 0x39) ||
  (0x27 ≤ b && b ≤ 0x29) || (0x2b ≤ b && b ≤ 0x2f) || b == 0x20 || b == 0x3a ||
  b == 0x3d || b == 0x3f || (asterisk && b == 0x2a) || (ampersand && b == 0x26)

/-- parsePrintableString mirrors Go `parsePrintableString` (asterisk and
ampersand are permitted on parse). -/
def parsePrintableString (s : List Nat) : Except Error (List Nat) :=
  if s.all (isPrintableByte true true) then .ok s else .error .invalidPrintable

/-- parseNumericString mirrors Go `parseNumericString`. -/
def parseNumericString (s : List Nat) : Except Error (List Nat) :=
  if s.all (fun b => (0x30 ≤ b && b ≤ 0x39) || b == 0x20) then .ok s
  else .error .invalidNumeric

/-- parseIA5String mirrors Go `parseIA5String`: every byte below 0x80. -/
def parseIA5String (s : List Nat) : Except Error (List Nat) :=
  if s.all (fun b => b < 0x80) then .ok s else .error .invalidIA5

/-- parseT61String mirrors Go `parseT61String` (also used for
GeneralString): the bytes pass through unchecked. -/
def parseT61String (s : List Nat) : Except Error (List Nat) := .ok s

/-- isCont recognises a UTF-8 continuation byte. -/
def isCont (b : Nat) : Bool := 0x80 ≤ b && b ≤ 0xBF

/-- utf8Valid mirrors Go `utf8.Valid`: RFC 3629 shortest-form UTF-8 with
surrogates excluded and code points capped at U+10FFFF. -/
def utf8Valid : List Nat → Bool
  | [] => true
  | b :: r =>
    if b ≤ 0x7F then utf8Valid r
    else if b < 0xC2 then false
    else if b ≤ 0xDF then
      match r with
      | c :: r2 => isCont c && utf8Valid r2
      | [] => false
    else if b ≤ 0xEF then
      match r with
      | c1 :: c2 :: r2 =>
        (if b = 0xE0 then 0xA0 ≤ c1 && c1 ≤ 0xBF
         else if b = 0xED then 0x80 ≤ c1 && c1 ≤ 0x9F
         else isCont c1) && isCont c2 && utf8Valid r2
      | _ => false
    else if b ≤ 0xF4 then
      match r with
      | c1 :: c2 :: c3 :: r2 =>
        (if b = 0xF0 then 0x90 ≤ c1 && c1 ≤ 0xBF
         else if b = 0xF4 then 0x80 ≤ c1 && c1 ≤ 0x8F
         else isCont c1) && isCont c2 && isCont c3 && utf8Valid r2
      | _ => false
    else false

/-- parseUTF8String mirrors Go `parseUTF8String`: the bytes must be valid
UTF-8. -/
def parseUTF8String (s : List Nat) : Except Error (List Nat) :=
  if utf8Valid s then .ok s else .error .invalidUTF8

/-- utf16Units turns big-endian byte pairs into 16-bit code units (the
caller has already rejected odd lengths). -/
def utf16Units : List Nat → List Nat
  | b1 :: b2 :: rest => ((b1 <<< 8) + b2) :: utf16Units rest
  | _ => []

/-- utf16DecodeUnits mirrors Go `utf16.Decode`: surrogate pairs combine,
lone surrogates become U+FFFD. -/
def utf16DecodeUnits : List Nat → List Nat
  | [] => []
  | [u] => if u < 0xD800 ∨ 0xE000 ≤ u then [u] else [0xFFFD]
  | u :: u2 :: rest2 =>
    if u < 0xD800 ∨ 0xE000 ≤ u then u :: utf16DecodeUnits (u2 :: rest2)
    else if u ≤ 0xDBFF then
      if 0xDC00 ≤ u2 ∧ u2 ≤ 0xDFFF then
        (0x10000 + ((u - 0xD800) <<< 10) + (u2 - 0xDC00)) :: utf16DecodeUnits rest2
      else 0xFFFD :: utf16DecodeUnits (u2 :: rest2)
    else 0xFFFD :: utf16DecodeUnits (u2 :: rest2)

/-- utf8EncodeChar is the UTF-8 encoding of one code point (Go's
`string(runes)` conversion). -/
def utf8EncodeChar (c : Nat) : List Nat :=
  if c < 0x80 then [c]
  else if c < 0x800 then [0xC0 ||| (c >>> 6), 0x80 ||| (c &&& 0x3F)]
  else if c < 0x10000 then
    [0xE0 ||| (c >>> 12), 0x80 ||| ((c >>> 6) &&& 0x3F), 0x80 ||| (c &&& 0x3F)]
  else
    [0xF0 ||| (c >>> 18), 0x80 ||| ((c >>> 12) &&& 0x3F),
      0x80 ||| ((c >>> 6) &&& 0x3F), 0x80 ||| (c &&& 0x3F)]

/-- parseBMPString mirrors Go `parseBMPString`: reject odd lengths, strip a
trailing 16-bit zero terminator, decode UTF-16, and return the UTF-8 bytes
of the resulting string. -/
def parseBMPString (s : List Nat) : Except Error (List Nat) :=
  if s.length % 2 ≠ 0 then .error .oddBMP
  else
    let s1 :=
      if 2 ≤ s.length ∧ s.getD (s.length - 1) 1 = 0 ∧ s.getD (s.length - 2) 1 = 0 then
        s.take (s.length - 2)
      else s
    .ok ((utf16DecodeUnits (utf16Units s1)).map utf8EncodeChar).flatten

/-- checkInteger mirrors Go `checkInteger`: non-empty and minimally
encoded. -/
def checkInteger (bytes : List Nat) : Except Error Unit :=
  if bytes.length = 0 then .error .emptyInteger
  else if bytes.length = 1 then .ok ()
  else if (bytes.getD 0 0 = 0 ∧ bytes.getD 1 0 &&& 0x80 = 0) ∨
      (bytes.getD 0 0 = 0xff ∧ bytes.getD 1 0 &&& 0x80 = 0x80) then
    .error .integerNotMinimal
  else .ok ()

/-- parseInt64 mirrors Go `parseInt64`: at most 8 bytes of big-endian
two's-complement, sign extended. -/
def parseInt64 (bytes : List Nat) : Except Error Int :=
  match checkInteger bytes with
  | .error e => .error e
  | .ok _ =>
    if 8 < bytes.length then .error .integerTooLarge
    else
      let n : Nat := bytes.foldl (fun a b => a * 256 + b) 0
      let k := bytes.length
      .ok (if n < 2 ^ (8 * k - 1) then (n : Int) else (n : Int) - (2 : Int) ^ (8 * k))

end Asn1

namespace Asn1

/-- parseExplicitField mirrors Go `parseField` for a struct member carrying
an `explicit` context-specific tag, as the reflection machinery behaves on
the RDCleanPath structs: handle the empty-buffer default, parse the
wrapper's tag/length, reject a wrapper that ends the buffer, unwrap the
inner element, and either parse the content per `uMatch` or — on a tag
mismatch with an optional member — restore the original position and
return the zero value.  `uMatch` reflects the universal-type matching of
the member's Go type: `.ok (some f)` parses the content with `f`,
`.ok none` is a tag mismatch, `.error e` is a hard error such as an
unsupported Go type. -/
def parseExplicitField {α : Type} (tagNum : Nat) (opt : Bool) (dflt : α)
    (uMatch : TagLen → Except Error (Option (List Nat → Except Error α)))
    (s : List Nat) : Except Error (α × List Nat) :=
  match s with
  | [] => if opt then .ok (dflt, []) else .error .seqTruncated
  | _ :: _ =>
    match parseTagAndLength s with
    | .error e => .error e
    | .ok (t0, s1) =>
      if s1.isEmpty then .error .explicitNoChild
      else if t0.cls = 2 ∧ t0.tag = tagNum ∧ (t0.len = 0 ∨ t0.compound) then
        if t0.len ≠ 0 then
          match parseTagAndLength s1 with
          | .error e => .error e
          | .ok (t1, s2) =>
            match uMatch t1 with
            | .error e => .error e
            | .ok (some f) =>
              if s2.length < t1.len then .error .dataTruncated
              else
                match f (s2.take t1.len) with
                | .error e => .error e
                | .ok v => .ok (v, s2.drop t1.len)
            | .ok none => if opt then .ok (dflt, s) else .error .tagsDontMatch
        else .error .zeroLengthExplicit
      else if opt then .ok (dflt, s) else .error .explicitTagMismatch

/-- intMatch is the universal-type match of an `int` member: universal
primitive INTEGER (tag 2), parsed by `parseInt64`. -/
def intMatch : TagLen → Except Error (Option (List Nat → Except Error Int)) :=
  fun t =>
    if t.cls = 0 ∧ t.tag = 2 ∧ t.compound = false then .ok (some parseInt64)
    else .ok none

/-- uint8Match reflects that `encoding/asn1` has no case for Go's `uint8`:
once the explicit wrapper has been unwrapped, `getUniversalType` fails with
an unknown-Go-type error regardless of the inner tag. -/
def uint8Match : TagLen → Except Error (Option (List Nat → Except Error Nat)) :=
  fun _ => .error .unknownGoType

/-- strMatch is the universal-type match of a `string` member: Go starts
from PrintableString and adopts the wire's string type when it is one of
the other universal string tags; constructed strings do not match. -/
def strMatch : TagLen → Except Error (Option (List Nat → Except Error (List Nat))) :=
  fun t =>
    if t.cls = 0 ∧ t.compound = false then
      if t.tag = 19 then .ok (some parsePrintableString)
      else if t.tag = 18 then .ok (some parseNumericString)
      else if t.tag = 22 then .ok (some parseIA5String)
      else if t.tag = 20 ∨ t.tag = 27 then .ok (some parseT61String)
      else if t.tag = 12 then .ok (some parseUTF8String)
      else if t.tag = 30 then .ok (some parseBMPString)
      else .ok none
    else .ok none

/-- octetMatch is the universal-type match of a `[]byte` member: universal
primitive OCTET STRING (tag 4); the content bytes are taken verbatim, and a
decoded value is always a non-nil slice (`some`). -/
def octetMatch : TagLen → Except Error (Option (List Nat → Except Error (Option (List Nat)))) :=
  fun t =>
    if t.cls = 0 ∧ t.tag = 4 ∧ t.compound = false then
      .ok (some (fun bytes => .ok (some bytes)))
    else .ok none

/-- parseSeqOfOctetsAux is the element loop of Go `parseSequenceOf` for
element type `[]byte`: every element must be a universal primitive OCTET
STRING (Go's string-tag conflation cannot produce tag 4), each length must
fit the buffer, and the contents are collected in order.  The loop advances
the offset by at least one byte per element, so the buffer length bounds
the iteration count; `fuel` carries that bound structurally. -/
def parseSeqOfOctetsAux : Nat → List Nat → Except Error (List (List Nat))
  | _, [] => .ok []
  | 0, _ :: _ => .error .truncatedSequence
  | fuel + 1, s =>
    match parseTagAndLength s with
    | .error e => .error e
    | .ok (t, s1) =>
      if ¬ (t.cls = 0 ∧ t.compound = false ∧ t.tag = 4) then .error .seqTagMismatch
      else if s1.length < t.len then .error .truncatedSequence
      else
        match parseSeqOfOctetsAux fuel (s1.drop t.len) with
        | .error e => .error e
        | .ok rest => .ok (s1.take t.len :: rest)

/-- parseSeqOfOctets runs the element loop with the buffer length as the
iteration bound (the `fuel = 0` case with a non-empty buffer is
unreachable because each element consumes at least one byte). -/
def parseSeqOfOctets (s : List Nat) : Except Error (List (List Nat)) :=
  parseSeqOfOctetsAux s.length s

/-- chainMatch is the universal-type match of a `[][]byte` member:
universal constructed SEQUENCE (tag 16) of OCTET STRINGs; a decoded value
is always a non-nil slice (`some`). -/
def chainMatch : TagLen → Except Error (Option (List Nat → Except Error (Option (List (List Nat))))) :=
  fun t =>
    if t.cls = 0 ∧ t.tag = 16 ∧ t.compound = true then
      .ok (some (fun bytes =>
        match parseSeqOfOctets bytes with
        | .error e => .error e
        | .ok l => .ok (some l)))
    else .ok none

end Asn1

namespace Rdcleanpath

/-- Err mirrors the Go `rdcleanpath.Err` struct (tags 0-3, the last three
optional; `tlsAlertCode` is a `uint8`). -/
structure Err where
  errorCode : Int
  httpStatusCode : Int
  wsaLastError : Int
  tlsAlertCode : Nat
  deriving DecidableEq, Repr

/-- zeroErr is the Go zero value of `Err`, the value `asn1:"optional"`
omission compares against. -/
def zeroErr : Err := ⟨0, 0, 0, 0⟩

/-- Pdu mirrors the Go `rdcleanpath.Pdu` struct.  Go strings are byte lists
(a Go string cannot be nil, so absence is the empty string); Go byte slices
are `Option (List Nat)` (`none` is a nil slice, `some []` a non-nil empty
one), and likewise for the certificate chain. -/
structure Pdu where
  version : Int
  error : Err
  destination : List Nat
  proxyAuth : List Nat
  serverAuth : List Nat
  preconnectionBlob : List Nat
  x224ConnectionPdu : Option (List Nat)
  serverCertChain : Option (List (List Nat))
  serverAddr : List Nat
  deriving DecidableEq, Repr

/-- parseErrFields parses the SEQUENCE content of an `Err` value, field by
field in tag order, exactly as Go's struct loop does (trailing bytes inside
the SEQUENCE are tolerated). -/
def parseErrFields (s0 : List Nat) : Except Asn1.Error Err := do
  let (ec, s1) ← Asn1.parseExplicitField 0 false 0 Asn1.intMatch s0
  let (hsc, s2) ← Asn1.parseExplicitField 1 true 0 Asn1.intMatch s1
  let (wle, s3) ← Asn1.parseExplicitField 2 true 0 Asn1.intMatch s2
  let (tac, _s4) ← Asn1.parseExplicitField 3 true 0 Asn1.uint8Match s3
  pure ⟨ec, hsc, wle, tac⟩

/-- errMatch is the universal-type match of the `Err` struct member:
universal constructed SEQUENCE parsed by `parseErrFields`. -/
def errMatch : Asn1.TagLen → Except Asn1.Error (Option (List Nat → Except Asn1.Error Err)) :=
  fun t =>
    if t.cls = 0 ∧ t.tag = 16 ∧ t.compound = true then .ok (some parseErrFields)
    else .ok none

/-- parsePduFields parses the SEQUENCE content of a `Pdu`, field by field in
tag order (version 0, error 1, destination 2, proxyAuth 3, serverAuth 4,
preconnectionBlob 5, x224ConnectionPdu 6, serverCertChain 7, serverAddr 9),
exactly as Go's struct loop does; bytes left over inside the SEQUENCE are
tolerated. -/
def parsePduFields (s0 : List Nat) : Except Asn1.Error Pdu := do
  let (version, s1) ← Asn1.parseExplicitField 0 false 0 Asn1.intMatch s0
  let (err, s2) ← Asn1.parseExplicitField 1 true zeroErr errMatch s1
  let (dest, s3) ← Asn1.parseExplicitField 2 true [] Asn1.strMatch s2
  let (pa, s4) ← Asn1.parseExplicitField 3 true [] Asn1.strMatch s3
  let (sa, s5) ← Asn1.parseExplicitField 4 true [] Asn1.strMatch s4
  let (pb, s6) ← Asn1.parseExplicitField 5 true [] Asn1.strMatch s5
  let (x224, s7) ← Asn1.parseExplicitField 6 true none Asn1.octetMatch s6
  let (chain, s8) ← Asn1.parseExplicitField 7 true none Asn1.chainMatch s7
  let (addr, _s9) ← Asn1.parseExplicitField 9 true [] Asn1.strMatch s8
  pure ⟨version, err, dest, pa, sa, pb, x224, chain, addr⟩

/-- asn1UnmarshalPdu mirrors `asn1.Unmarshal(src, &Pdu{})`: parse one
universal constructed SEQUENCE at the start of the buffer into a `Pdu` and
return the unconsumed rest. -/
def asn1UnmarshalPdu (b : List Nat) : Except Asn1.Error (Pdu × List Nat) :=
  match b with
  | [] => .error .seqTruncated
  | _ :: _ =>
    match Asn1.parseTagAndLength b with
    | .error e => .error e
    | .ok (t, s1) =>
      if t.cls = 0 ∧ t.tag = 16 ∧ t.compound = true then
        if s1.length < t.len then .error .dataTruncated
        else
          match parsePduFields (s1.take t.len) with
          | .error e => .error e
          | .ok pdu => .ok (pdu, s1.drop t.len)
      else .error .tagsDontMatch

/-- UErr enumerates the failure modes of the package's `Unmarshal`: an
`encoding/asn1` error, or the "trailing data after PDU" error with the
number of leftover bytes. -/
inductive UErr where
  | asn1 (e : Asn1.Error)
  | trailingData (n : Nat)
  deriving DecidableEq, Repr

/-- Unmarshal mirrors Go `rdcleanpath.Unmarshal`: decode one PDU and fail
if any bytes trail it. -/
def Unmarshal (src : List Nat) : Except UErr Pdu :=
  match asn1UnmarshalPdu src with
  | .error e => .error (.asn1 e)
  | .ok (pdu, rest) =>
    if 0 < rest.length then .error (.trailingData rest.length) else .ok pdu

end Rdcleanpath

namespace Asn1

/-- lenLength mirrors Go `lengthLength` (`numBytes = 1; for i > 255 ...`),
the loop unrolled over the range a non-negative Go `int` can take; larger
values cannot arise as Go slice lengths. -/
def lenLength (n : Nat) : Nat :=
  if n < 2 ^ 8 then 1
  else if n < 2 ^ 16 then 2
  else if n < 2 ^ 24 then 3
  else if n < 2 ^ 32 then 4
  else if n < 2 ^ 40 then 5
  else if n < 2 ^ 48 then 6
  else if n < 2 ^ 56 then 7
  else 8

/-- lenDigits is the digit loop of Go `appendLength`:
`byte(i >> uint((n-1)*8))` for each position. -/
def lenDigits (n : Nat) : List Nat :=
  (List.range (lenLength n)).map (fun j => (n >>> (8 * (lenLength n - 1 - j))) &&& 0xFF)

/-- lenBytes is DER length encoding as Go `appendLength` writes it: short
form below 0x80, otherwise `0x80 | numBytes` followed by the big-endian
digits. -/
def lenBytes (n : Nat) : List Nat :=
  if n < 0x80 then [n] else (0x80 ||| lenLength n) :: lenDigits n

/-- tlv assembles one identifier byte, the DER length of the content, and
the content. -/
def tlv (tagByte : Nat) (content : List Nat) : List Nat :=
  tagByte :: lenBytes content.length ++ content

/-- int64Length mirrors Go `int64Length`: the number of bytes of the
minimal two's-complement encoding, the shift loop unrolled over the
`int64` range (the `i >> 8` steps stop as soon as `-128 ≤ i ≤ 127`). -/
def int64Length (i : Int) : Nat :=
  if -(2 ^ 7) ≤ i ∧ i < 2 ^ 7 then 1
  else if -(2 ^ 15) ≤ i ∧ i < 2 ^ 15 then 2
  else if -(2 ^ 23) ≤ i ∧ i < 2 ^ 23 then 3
  else if -(2 ^ 31) ≤ i ∧ i < 2 ^ 31 then 4
  else if -(2 ^ 39) ≤ i ∧ i < 2 ^ 39 then 5
  else if -(2 ^ 47) ≤ i ∧ i < 2 ^ 47 then 6
  else if -(2 ^ 55) ≤ i ∧ i < 2 ^ 55 then 7
  else 8

/-- tcBytes mirrors Go `appendTwosComplement`: big-endian bytes of the
minimal two's-complement encoding, `byte(x >> 8*(n-1-j))` for each
position. -/
def tcBytes (x : Int) : List Nat :=
  (List.range (int64Length x)).map
    (fun j => ((Int.fdiv x ((2 : Int) ^ (8 * (int64Length x - 1 - j)))).emod 256).toNat)

/-- encInt is the INTEGER TLV of an `int` member. -/
def encInt (i : Int) : List Nat := tlv 0x02 (tcBytes i)

/-- encOctet is the OCTET STRING TLV of a `[]byte` member. -/
def encOctet (l : List Nat) : List Nat := tlv 0x04 l

/-- MErr enumerates marshal-side failures: a string that needs UTF8String
encoding but is not valid UTF-8, and a Go type `encoding/asn1` cannot
marshal (the `uint8` member). -/
inductive MErr where
  | invalidUTF8String
  | unsupportedType
  deriving DecidableEq, Repr

/-- encString mirrors Go's default string marshalling: PrintableString when
every character is printable ASCII (asterisk and ampersand rejected on
marshal), otherwise UTF8String after a UTF-8 validity check. -/
def encString (s : List Nat) : Except MErr (List Nat) :=
  if s.all (fun b => b < 0x80 && isPrintableByte false false b) then .ok (tlv 0x13 s)
  else if utf8Valid s then .ok (tlv 0x0C s)
  else .error .invalidUTF8String

/-- encUTF8String mirrors marshalling a string member tagged `utf8`: the
tag is forced to UTF8String and the bytes are written without a validity
check. -/
def encUTF8String (s : List Nat) : List Nat := tlv 0x0C s

/-- encExplicit wraps an encoded element in the constructed
context-specific tag `[tagNum]` (identifier byte `0xA0 + tagNum` for the
small tags used here). -/
def encExplicit (tagNum : Nat) (inner : List Nat) : List Nat :=
  tlv (0xA0 + tagNum) inner

end Asn1

namespace Rdcleanpath

/-- encErrBody is the SEQUENCE content of a marshalled `Err`: tag 0 always,
tags 1 and 2 omitted at their zero values, and the `uint8` member at tag 3
unsupported by `encoding/asn1` whenever it is non-zero. -/
def encErrBody (e : Err) : Except Asn1.MErr (List Nat) := do
  let f0 := Asn1.encExplicit 0 (Asn1.encInt e.errorCode)
  let f1 := if e.httpStatusCode = 0 then [] else Asn1.encExplicit 1 (Asn1.encInt e.httpStatusCode)
  let f2 := if e.wsaLastError = 0 then [] else Asn1.encExplicit 2 (Asn1.encInt e.wsaLastError)
  let f3 ← if e.tlsAlertCode = 0 then pure [] else throw Asn1.MErr.unsupportedType
  pure (f0 ++ f1 ++ f2 ++ f3)

/-- pduBody is the SEQUENCE content of a marshalled `Pdu`: each member in
tag order wrapped in its explicit tag, with optional members omitted when
they equal their Go zero value (empty string, nil slice, zero `Err`). -/
def pduBody (p : Pdu) : Except Asn1.MErr (List Nat) := do
  let f0 := Asn1.encExplicit 0 (Asn1.encInt p.version)
  let f1 ←
    if p.error = zeroErr then pure [] else do
      let b ← encErrBody p.error
      pure (Asn1.encExplicit 1 (Asn1.tlv 0x30 b))
  let f2 ←
    if p.destination = [] then pure [] else do
      let e ← Asn1.encString p.destination
      pure (Asn1.encExplicit 2 e)
  let f3 ←
    if p.proxyAuth = [] then pure [] else do
      let e ← Asn1.encString p.proxyAuth
      pure (Asn1.encExplicit 3 e)
  let f4 ←
    if p.serverAuth = [] then pure [] else do
      let e ← Asn1.encString p.serverAuth
      pure (Asn1.encExplicit 4 e)
  let f5 ←
    if p.preconnectionBlob = [] then pure [] else do
      let e ← Asn1.encString p.preconnectionBlob
      pure (Asn1.encExplicit 5 e)
  let f6 :=
    match p.x224ConnectionPdu with
    | none => []
    | some l => Asn1.encExplicit 6 (Asn1.encOctet l)
  let f7 :=
    match p.serverCertChain with
    | none => []
    | some certs => Asn1.encExplicit 7 (Asn1.tlv 0x30 ((certs.map Asn1.encOctet).flatten))
  let f9 :=
    if p.serverAddr = [] then [] else Asn1.encExplicit 9 (Asn1.encUTF8String p.serverAddr)
  pure (f0 ++ f1 ++ f2 ++ f3 ++ f4 ++ f5 ++ f6 ++ f7 ++ f9)

/-- Pdu.Marshal mirrors Go `(*Pdu).Marshal` = `asn1.Marshal(*pdu)`: the
struct marshals as a universal constructed SEQUENCE of its members. -/
def Pdu.Marshal (p : Pdu) : Except Asn1.MErr (List Nat) :=
  match pduBody p with
  | .error e => .error e
  | .ok body => .ok (Asn1.tlv 0x30 body)

/-- NewResp mirrors Go `rdcleanpath.NewResp` (whose error result is always
nil): version `3389 + 1` ("Version 1"), the X.224 connection PDU and
certificate chain verbatim, the server address, and every other field left
at its zero value. -/
def NewResp (serverAddr : List Nat) (x224Pdu : Option (List Nat))
    (x509Chain : Option (List (List Nat))) : Pdu :=
  { version := 3389 + 1
    error := zeroErr
    destination := []
    proxyAuth := []
    serverAuth := []
    preconnectionBlob := []
    x224ConnectionPdu := x224Pdu
    serverCertChain := x509Chain
    serverAddr := serverAddr }

end Rdcleanpath

namespace Tpkt

/-! Helper lemmas about `readFull` and list indexing. -/

theorem readFull_ok {n : Nat} {s : List Nat} (h : n ≤ s.length) :
    readFull n s = .ok (s.take n, s.drop n) := by
  unfold readFull; rw [if_pos h]

theorem readFull_fail {n : Nat} {s : List Nat} (h : s.length < n) :
    Except.mapError (fun e => ReadErr.ioErr (eofToUnexpected e)) (readFull n s) =
      .error (.ioErr .unexpectedEOF) := by
  unfold readFull
  rw [if_neg (by omega)]
  by_cases he : s.isEmpty
  · rw [if_pos he]; rfl
  · rw [if_neg he]; rfl

theorem getD_take {s : List Nat} {i n d : Nat} (h : i < n) :
    (s.take n).getD i d = s.getD i d := by
  simp [List.getD_eq_getElem?_getD, List.getElem?_take, h]

theorem exc_bind_ok {ε α β : Type} (a : α) (f : α → Except ε β) :
    (Except.ok a : Except ε α) >>= f = f a := rfl

theorem exc_bind_err {ε α β : Type} (e : ε) (f : α → Except ε β) :
    (Except.error e : Except ε α) >>= f = .error e := rfl

theorem exc_map_ok {ε α β : Type} (g : α → β) (a : α) :
    (g <$> (Except.ok a : Except ε α)) = .ok (g a) := rfl

theorem exc_pure {ε α : Type} (a : α) : (pure a : Except ε α) = .ok a := rfl

/-- A FastPath buffer whose header fits in the buffer is detected with the
spec's declared payload length. -/
theorem findPduSize_fastPath {s : List Nat} (h0 : s.getD 0 0 &&& 0b11 = 0)
    (h2 : fpHeaderSize s ≤ s.length) :
    FindPduSize s = .ok ⟨.fastPath, fpLen s⟩ := by
  by_cases hbit : s.getD 1 0 &&& 0x80 ≠ 0
  · have h3 : 3 ≤ s.length := by
      have : fpHeaderSize s = 3 := by unfold fpHeaderSize; rw [if_pos hbit]
      omega
    simp only [FindPduSize, MinHeaderSize, FastPathMinSize, FastPathLargeSize, fpLen, h0,
      if_pos, if_neg, if_true]
    rw [if_neg (by omega : ¬ s.length < 2), if_pos hbit,
      if_neg (by omega : ¬ s.length < 3), if_pos hbit,
      if_neg (by omega : ¬ s.length < 1)]
    by_cases hz : ((s.getD 1 0 &&& 0x7F) <<< 8) ||| s.getD 2 0 = 0
    · rw [if_pos hz, hz]
    · rw [if_neg hz]
  · have h2' : 2 ≤ s.length := by
      have : fpHeaderSize s = 2 := by unfold fpHeaderSize; rw [if_neg hbit]
      omega
    simp only [FindPduSize, MinHeaderSize, FastPathMinSize, FastPathLargeSize, fpLen, h0,
      if_pos, if_neg, if_true]
    rw [if_neg (by omega : ¬ s.length < 2), if_neg hbit, if_neg hbit,
      if_neg (by omega : ¬ s.length < 1)]
    by_cases hz : s.getD 1 0 = 0
    · rw [if_pos hz, hz]
    · rw [if_neg hz]

/-- A TPKT buffer with version byte 3, at least 4 bytes, and a declared total
length of at least the header size is detected with the spec's big-endian
total length. -/
theorem findPduSize_tpkt {s : List Nat} (h0 : s.getD 0 0 = 0x03)
    (h4 : 4 ≤ s.length) (hl : 4 ≤ tpktLen s) :
    FindPduSize s = .ok ⟨.x224, tpktLen s⟩ := by
  unfold tpktLen at hl
  simp only [FindPduSize, MinHeaderSize, TPKTHeaderSize, tpktLen, h0]
  rw [if_neg (by omega : ¬ s.length < 1), if_neg (by decide : ¬ ((3 : Nat) &&& 3 = 0)),
    if_pos (by decide : (3 : Nat) &&& 3 = 3), if_neg (by omega : ¬ s.length < 4),
    if_neg (by decide : ¬ ((3 : Nat) ≠ 3)), if_neg (by omega)]

end Tpkt

namespace Tpkt

/-- C1: for every byte stream beginning with a valid FastPath header (low two
bits of byte 0 equal 00) that holds the whole frame, the frame reader reports
the declared payload length of the spec's 7-bit/15-bit rule unchanged,
consumes exactly `fpHeaderSize + fpLen` bytes, and returns them as one
frame, leaving the rest of the stream untouched. -/
theorem readFrame_fastPath_exact (s : List Nat) (hb : ∀ b ∈ s, b < 256)
    (h0 : s.getD 0 0 &&& 0b11 = 0)
    (hlen : fpHeaderSize s + fpLen s ≤ s.length) :
    FindPduSize s = .ok ⟨.fastPath, fpLen s⟩ ∧
    ReadFrame s = .ok (s.take (fpHeaderSize s + fpLen s), .fastPath,
      s.drop (fpHeaderSize s + fpLen s)) ∧
    (s.take (fpHeaderSize s + fpLen s)).length = fpHeaderSize s + fpLen s := by
  refine ⟨findPduSize_fastPath h0 (by omega), ?_, by simp [List.length_take]; omega⟩
  by_cases hbit : s.getD 1 0 &&& 0x80 ≠ 0
  case neg =>
    have hbit' : s.getD 1 0 &&& 0x80 = 0 := not_not.mp hbit
    have hfps : fpHeaderSize s = 2 := by unfold fpHeaderSize; rw [if_neg hbit]
    have hfpl : fpLen s = s.getD 1 0 := by unfold fpLen; rw [if_neg hbit]
    rw [hfps, hfpl] at hlen ⊢
    have h2 : 2 ≤ s.length := by omega
    have e1 : readFull MinHeaderSize s = .ok (s.take 1, s.drop 1) :=
      readFull_ok (by unfold MinHeaderSize; omega)
    have e2 : readFull (FastPathMinSize - MinHeaderSize) (s.drop 1) =
        .ok ((s.drop 1).take 1, s.drop 2) := by
      rw [readFull_ok (by simp only [List.length_drop]; unfold FastPathMinSize MinHeaderSize; omega)]
      rw [List.drop_drop]
      rfl
    have ht2 : s.take 1 ++ (s.drop 1).take 1 = s.take 2 := (s.take_add 1 1).symm
    have hg0 : (s.take 1).getD 0 0 = s.getD 0 0 := getD_take (by omega)
    have hg1 : (s.take 2).getD 1 0 = s.getD 1 0 := getD_take (by omega)
    have hg0' : (s.take 2).getD 0 0 = s.getD 0 0 := getD_take (by omega)
    have efind : FindPduSize (s.take 2) = .ok ⟨.fastPath, s.getD 1 0⟩ := by
      have hh : fpHeaderSize (s.take 2) = 2 := by
        unfold fpHeaderSize; rw [hg1, if_neg hbit]
      have hfind := findPduSize_fastPath (s := s.take 2) (by rw [hg0']; exact h0)
        (by rw [hh]; simp only [List.length_take]; omega)
      rw [hfind]
      unfold fpLen; rw [hg1, if_neg hbit]
    have e3 : readFull (s.getD 1 0) (s.drop 2) =
        .ok ((s.drop 2).take (s.getD 1 0), s.drop (2 + s.getD 1 0)) := by
      rw [readFull_ok (by simp only [List.length_drop]; omega)]
      rw [List.drop_drop]
    have ht : s.take 2 ++ (s.drop 2).take (s.getD 1 0) = s.take (2 + s.getD 1 0) :=
      (s.take_add 2 (s.getD 1 0)).symm
    simp only [ReadFrame, e1, Except.mapError, exc_bind_ok, exc_map_ok, hg0, h0,
      ne_eq, not_true, not_false_iff, exc_pure, reduceIte, e2, ht2, hg1, hbit', efind, e3,
      ← List.append_assoc, ht]
  case pos =>
    have hfps : fpHeaderSize s = 3 := by unfold fpHeaderSize; rw [if_pos hbit]
    rw [hfps] at hlen ⊢
    have h3 : 3 ≤ s.length := by omega
    have e1 : readFull MinHeaderSize s = .ok (s.take 1, s.drop 1) :=
      readFull_ok (by unfold MinHeaderSize; omega)
    have e2 : readFull (FastPathMinSize - MinHeaderSize) (s.drop 1) =
        .ok ((s.drop 1).take 1, s.drop 2) := by
      rw [readFull_ok (by simp only [List.length_drop]; unfold FastPathMinSize MinHeaderSize; omega)]
      rw [List.drop_drop]
      rfl
    have ht2 : s.take 1 ++ (s.drop 1).take 1 = s.take 2 := (s.take_add 1 1).symm
    have e2' : readFull 1 (s.drop 2) = .ok ((s.drop 2).take 1, s.drop 3) := by
      rw [readFull_ok (by simp only [List.length_drop]; omega)]
      rw [List.drop_drop]
    have ht3 : s.take 2 ++ (s.drop 2).take 1 = s.take 3 := (s.take_add 2 1).symm
    have hg0 : (s.take 1).getD 0 0 = s.getD 0 0 := getD_take (by omega)
    have hg1 : (s.take 2).getD 1 0 = s.getD 1 0 := getD_take (by omega)
    have hg1' : (s.take 3).getD 1 0 = s.getD 1 0 := getD_take (by omega)
    have hg2' : (s.take 3).getD 2 0 = s.getD 2 0 := getD_take (by omega)
    have hg0' : (s.take 3).getD 0 0 = s.getD 0 0 := getD_take (by omega)
    have efind : FindPduSize (s.take 3) = .ok ⟨.fastPath, fpLen s⟩ := by
      have hh : fpHeaderSize (s.take 3) = 3 := by
        unfold fpHeaderSize; rw [hg1', if_pos hbit]
      have hfind := findPduSize_fastPath (s := s.take 3) (by rw [hg0']; exact h0)
        (by rw [hh]; simp only [List.length_take]; omega)
      rw [hfind]
      unfold fpLen; rw [hg1', hg2', if_pos hbit]
    have e3 : readFull (fpLen s) (s.drop 3) =
        .ok ((s.drop 3).take (fpLen s), s.drop (3 + fpLen s)) := by
      rw [readFull_ok (by simp only [List.length_drop]; omega)]
      rw [List.drop_drop]
    have ht : s.take 3 ++ (s.drop 3).take (fpLen s) = s.take (3 + fpLen s) :=
      (s.take_add 3 (fpLen s)).symm
    simp only [ReadFrame, e1, Except.mapError, exc_bind_ok, exc_map_ok, hg0, h0,
      ne_eq, not_true, not_false_iff, exc_pure, reduceIte, e2, ht2, hg1, hbit, e2', ht3, efind, e3,
      ← List.append_assoc, ht]

/-- C1 witness: the spec's scenario `0x00 0x05` followed by five payload
bytes is one FastPath frame of header size 2 and payload length 5, read
exactly (a trailing byte 0x63 is left in the stream). -/
theorem readFrame_fastPath_exact_witness :
    (∀ b ∈ ([0x00, 0x05, 1, 2, 3, 4, 5, 0x63] : List Nat), b < 256) ∧
    ([0x00, 0x05, 1, 2, 3, 4, 5, 0x63] : List Nat).getD 0 0 &&& 0b11 = 0 ∧
    fpHeaderSize [0x00, 0x05, 1, 2, 3, 4, 5, 0x63] +
      fpLen [0x00, 0x05, 1, 2, 3, 4, 5, 0x63] ≤
      ([0x00, 0x05, 1, 2, 3, 4, 5, 0x63] : List Nat).length ∧
    FindPduSize [0x00, 0x05, 1, 2, 3, 4, 5, 0x63] =
      .ok ⟨.fastPath, fpLen [0x00, 0x05, 1, 2, 3, 4, 5, 0x63]⟩ ∧
    ReadFrame [0x00, 0x05, 1, 2, 3, 4, 5, 0x63] =
      .ok (([0x00, 0x05, 1, 2, 3, 4, 5, 0x63] : List Nat).take
          (fpHeaderSize [0x00, 0x05, 1, 2, 3, 4, 5, 0x63] +
            fpLen [0x00, 0x05, 1, 2, 3, 4, 5, 0x63]), .fastPath,
        ([0x00, 0x05, 1, 2, 3, 4, 5, 0x63] : List Nat).drop
          (fpHeaderSize [0x00, 0x05, 1, 2, 3, 4, 5, 0x63] +
            fpLen [0x00, 0x05, 1, 2, 3, 4, 5, 0x63])) := by
  refine ⟨by decide, by decide, by decide, ?_⟩
  have h := readFrame_fastPath_exact [0x00, 0x05, 1, 2, 3, 4, 5, 0x63]
    (by decide) (by decide) (by decide)
  exact ⟨h.1, h.2.1⟩

end Tpkt

namespace Tpkt

/-- C2: for every byte stream beginning with a valid TPKT (LengthPrefixed)
header — version byte 3 and big-endian total length of at least 4 — that
holds the whole frame, the frame reader consumes exactly the declared total
length, returns those bytes as one frame, and the payload after the 4-byte
header has size total − 4. -/
theorem readFrame_tpkt_exact (s : List Nat) (hb : ∀ b ∈ s, b < 256)
    (h0 : s.getD 0 0 = 0x03)
    (h4 : 4 ≤ tpktLen s) (hlen : tpktLen s ≤ s.length) :
    FindPduSize s = .ok ⟨.x224, tpktLen s⟩ ∧
    ReadFrame s = .ok (s.take (tpktLen s), .x224, s.drop (tpktLen s)) ∧
    ((s.take (tpktLen s)).drop TPKTHeaderSize).length = tpktLen s - 4 := by
  have hs4 : 4 ≤ s.length := by omega
  refine ⟨findPduSize_tpkt h0 hs4 h4, ?_,
    by simp only [TPKTHeaderSize, List.length_drop, List.length_take]; omega⟩
  have e1 : readFull MinHeaderSize s = .ok (s.take 1, s.drop 1) :=
    readFull_ok (by unfold MinHeaderSize; omega)
  have e2 : readFull (TPKTHeaderSize - MinHeaderSize) (s.drop 1) =
      .ok ((s.drop 1).take 3, s.drop 4) := by
    rw [readFull_ok (by simp only [List.length_drop]; unfold TPKTHeaderSize MinHeaderSize; omega)]
    rw [List.drop_drop]
    rfl
  have ht4 : s.take 1 ++ (s.drop 1).take 3 = s.take 4 := (s.take_add 1 3).symm
  have hg0 : (s.take 1).getD 0 0 = s.getD 0 0 := getD_take (by omega)
  have hg0' : (s.take 4).getD 0 0 = s.getD 0 0 := getD_take (by omega)
  have hg2 : (s.take 4).getD 2 0 = s.getD 2 0 := getD_take (by omega)
  have hg3 : (s.take 4).getD 3 0 = s.getD 3 0 := getD_take (by omega)
  have efind : FindPduSize (s.take 4) = .ok ⟨.x224, tpktLen s⟩ := by
    have hfind := findPduSize_tpkt (s := s.take 4) (by rw [hg0']; exact h0)
      (by simp only [List.length_take]; omega)
      (by unfold tpktLen; rw [hg2, hg3]; exact h4)
    rw [hfind]
    unfold tpktLen; rw [hg2, hg3]
  have hni : ¬ ((tpktLen s : Int) - (TPKTHeaderSize : Int) < 0) := by
    unfold TPKTHeaderSize; push_cast; omega
  by_cases hp : 4 < tpktLen s
  · have hpi : (0 : Int) < (tpktLen s : Int) - (TPKTHeaderSize : Int) := by
      unfold TPKTHeaderSize; push_cast; omega
    have htn : ((tpktLen s : Int) - (TPKTHeaderSize : Int)).toNat = tpktLen s - 4 := by
      unfold TPKTHeaderSize; omega
    have hidx : 4 + (tpktLen s - 4) = tpktLen s := by omega
    have e3 : readFull (tpktLen s - 4) (s.drop 4) =
        .ok ((s.drop 4).take (tpktLen s - 4), (s.drop 4).drop (tpktLen s - 4)) :=
      readFull_ok (by simp only [List.length_drop]; omega)
    have hdd : (s.drop 4).drop (tpktLen s - 4) = s.drop (tpktLen s) := by
      rw [List.drop_drop, hidx]
    have ht : s.take 4 ++ (s.drop 4).take (tpktLen s - 4) = s.take (tpktLen s) := by
      have h := (s.take_add 4 (tpktLen s - 4)).symm
      rw [hidx] at h
      exact h
    simp only [ReadFrame, e1, Except.mapError, exc_bind_ok, exc_map_ok, hg0, h0,
      (by decide : (3 : Nat) &&& 3 = 3), (by decide : ¬ (3 : Nat) = 0), ne_eq, exc_pure,
      reduceIte, e2, ht4, efind,
      if_neg hni, if_pos hpi, htn, e3, hdd, ← List.append_assoc, ht]
  · have hp4 : tpktLen s = 4 := by omega
    have hpi : ¬ ((0 : Int) < (tpktLen s : Int) - (TPKTHeaderSize : Int)) := by
      unfold TPKTHeaderSize; push_cast; omega
    have ht : s.take 4 ++ ([] : List Nat) = s.take (tpktLen s) := by
      rw [hp4, List.append_nil]
    rw [hp4] at hni hpi
    simp only [ReadFrame, e1, Except.mapError, exc_bind_ok, exc_map_ok, hg0, h0,
      (by decide : (3 : Nat) &&& 3 = 3), (by decide : ¬ (3 : Nat) = 0), ne_eq, exc_pure,
      reduceIte, e2, ht4, efind,
      if_neg hni, if_neg hpi, ht, hp4]

/-- C2 witness: the spec's scenario `0x03 0x00 0x00 0x08 AA BB CC DD` is one
LengthPrefixed frame of total length 8 whose payload is `AA BB CC DD`. -/
theorem readFrame_tpkt_exact_witness :
    (∀ b ∈ ([0x03, 0x00, 0x00, 0x08, 0xAA, 0xBB, 0xCC, 0xDD] : List Nat), b < 256) ∧
    ([0x03, 0x00, 0x00, 0x08, 0xAA, 0xBB, 0xCC, 0xDD] : List Nat).getD 0 0 = 0x03 ∧
    tpktLen [0x03, 0x00, 0x00, 0x08, 0xAA, 0xBB, 0xCC, 0xDD] = 8 ∧
    FindPduSize [0x03, 0x00, 0x00, 0x08, 0xAA, 0xBB, 0xCC, 0xDD] =
      .ok ⟨.x224, tpktLen [0x03, 0x00, 0x00, 0x08, 0xAA, 0xBB, 0xCC, 0xDD]⟩ ∧
    ReadFrame [0x03, 0x00, 0x00, 0x08, 0xAA, 0xBB, 0xCC, 0xDD] =
      .ok (([0x03, 0x00, 0x00, 0x08, 0xAA, 0xBB, 0xCC, 0xDD] : List Nat).take
          (tpktLen [0x03, 0x00, 0x00, 0x08, 0xAA, 0xBB, 0xCC, 0xDD]), .x224,
        ([0x03, 0x00, 0x00, 0x08, 0xAA, 0xBB, 0xCC, 0xDD] : List Nat).drop
          (tpktLen [0x03, 0x00, 0x00, 0x08, 0xAA, 0xBB, 0xCC, 0xDD])) ∧
    (([0x03, 0x00, 0x00, 0x08, 0xAA, 0xBB, 0xCC, 0xDD] : List Nat).take
        (tpktLen [0x03, 0x00, 0x00, 0x08, 0xAA, 0xBB, 0xCC, 0xDD])).drop 4 =
      [0xAA, 0xBB, 0xCC, 0xDD] := by
  refine ⟨by decide, by decide, by decide, ?_, ?_, by decide⟩
  · exact (readFrame_tpkt_exact [0x03, 0x00, 0x00, 0x08, 0xAA, 0xBB, 0xCC, 0xDD]
      (by decide) (by decide) (by decide) (by decide)).1
  · exact (readFrame_tpkt_exact [0x03, 0x00, 0x00, 0x08, 0xAA, 0xBB, 0xCC, 0xDD]
      (by decide) (by decide) (by decide) (by decide)).2.1

end Tpkt

namespace Tpkt

theorem exc_mapError_ok {ε ε' α : Type} (f : ε → ε') (a : α) :
    Except.mapError f (.ok a) = (.ok a : Except ε' α) := rfl

theorem exc_mapError_err {ε ε' α : Type} (f : ε → ε') (e : ε) :
    (Except.mapError f (.error e) : Except ε' α) = .error (f e) := rfl

theorem readFull_err {n : Nat} {s : List Nat} (h : s.length < n) :
    readFull n s = .error (if s.isEmpty then IOErr.eof else IOErr.unexpectedEOF) := by
  unfold readFull
  rw [if_neg (by omega)]
  split <;> rfl

theorem eofToUnexpected_ite (c : Prop) [Decidable c] :
    eofToUnexpected (if c then IOErr.eof else IOErr.unexpectedEOF) = .unexpectedEOF := by
  split <;> rfl

/-- C5: for every stream that ends before a complete frame is assembled, the
frame reader fails with the `io.ErrUnexpectedEOF` condition — an error value
distinct from the clean end-of-stream `io.EOF` — and never returns a
(short) frame. -/
theorem readFrame_incomplete (s : List Nat) (hb : ∀ b ∈ s, b < 256)
    (h : Incomplete s) :
    ReadFrame s = .error (.ioErr .unexpectedEOF) ∧
    (ReadErr.ioErr .unexpectedEOF ≠ ReadErr.ioErr .eof) := by
  refine ⟨?_, by decide⟩
  rcases h with hA | ⟨h1, h0, hlt⟩ | ⟨h1, h3, hC⟩
  · -- empty stream: the very first 1-byte read hits a clean EOF, converted.
    have hnil : s = [] := List.length_eq_zero.mp (by omega)
    subst hnil
    simp only [ReadFrame, readFull_err (show ([] : List Nat).length < MinHeaderSize by decide),
      exc_mapError_err, exc_bind_err, List.isEmpty_nil, eofToUnexpected_ite]
  · -- FastPath discriminator
    have e1 : readFull MinHeaderSize s = .ok (s.take 1, s.drop 1) :=
      readFull_ok (by unfold MinHeaderSize; omega)
    have hg0 : (s.take 1).getD 0 0 = s.getD 0 0 := getD_take (by omega)
    by_cases hl2 : s.length < 2
    · -- only the first byte is available: the header-extension read fails.
      have e2 : readFull (FastPathMinSize - MinHeaderSize) (s.drop 1) =
          .error (if (s.drop 1).isEmpty then IOErr.eof else IOErr.unexpectedEOF) :=
        readFull_err (by simp only [List.length_drop]; unfold FastPathMinSize MinHeaderSize; omega)
      simp only [ReadFrame, e1, exc_mapError_ok, exc_bind_ok, hg0, h0, ne_eq,
        reduceIte, e2, exc_mapError_err, exc_bind_err, eofToUnexpected_ite]
    · have e2 : readFull (FastPathMinSize - MinHeaderSize) (s.drop 1) =
          .ok ((s.drop 1).take 1, s.drop 2) := by
        rw [readFull_ok (by simp only [List.length_drop]; unfold FastPathMinSize MinHeaderSize; omega)]
        rw [List.drop_drop]
        rfl
      have ht2 : s.take 1 ++ (s.drop 1).take 1 = s.take 2 := (s.take_add 1 1).symm
      have hg1 : (s.take 2).getD 1 0 = s.getD 1 0 := getD_take (by omega)
      have hg0' : (s.take 2).getD 0 0 = s.getD 0 0 := getD_take (by omega)
      by_cases hbit : s.getD 1 0 &&& 0x80 ≠ 0
      · -- 15-bit length form
        have hfps : fpHeaderSize s = 3 := by unfold fpHeaderSize; rw [if_pos hbit]
        rw [hfps] at hlt
        by_cases hl3 : s.length < 3
        · -- the conditional third header byte is missing.
          have e3 : readFull 1 (s.drop 2) =
              .error (if (s.drop 2).isEmpty then IOErr.eof else IOErr.unexpectedEOF) :=
            readFull_err (by simp only [List.length_drop]; omega)
          simp only [ReadFrame, e1, exc_mapError_ok, exc_bind_ok, hg0, h0, ne_eq,
            not_true, not_false_iff, reduceIte, e2, ht2, hg1, hbit, e3,
            exc_mapError_err, exc_bind_err, eofToUnexpected_ite]
        · -- the payload read fails.
          have e3 : readFull 1 (s.drop 2) = .ok ((s.drop 2).take 1, s.drop 3) := by
            rw [readFull_ok (by simp only [List.length_drop]; omega)]
            rw [List.drop_drop]
          have ht3 : s.take 2 ++ (s.drop 2).take 1 = s.take 3 := (s.take_add 2 1).symm
          have hg1' : (s.take 3).getD 1 0 = s.getD 1 0 := getD_take (by omega)
          have hg2' : (s.take 3).getD 2 0 = s.getD 2 0 := getD_take (by omega)
          have hg0'' : (s.take 3).getD 0 0 = s.getD 0 0 := getD_take (by omega)
          have efind : FindPduSize (s.take 3) = .ok ⟨.fastPath, fpLen s⟩ := by
            have hh : fpHeaderSize (s.take 3) = 3 := by
              unfold fpHeaderSize; rw [hg1', if_pos hbit]
            have hfind := findPduSize_fastPath (s := s.take 3) (by rw [hg0'']; exact h0)
              (by rw [hh]; simp only [List.length_take]; omega)
            rw [hfind]
            unfold fpLen; rw [hg1', hg2', if_pos hbit]
          have e4 : readFull (fpLen s) (s.drop 3) =
              .error (if (s.drop 3).isEmpty then IOErr.eof else IOErr.unexpectedEOF) :=
            readFull_err (by simp only [List.length_drop]; omega)
          simp only [ReadFrame, e1, exc_mapError_ok, exc_bind_ok, hg0, h0, ne_eq,
            not_true, not_false_iff, reduceIte, e2, ht2, hg1, hbit, e3, exc_pure, ht3,
            efind, e4, exc_mapError_err, exc_bind_err, eofToUnexpected_ite]
      · -- 7-bit length form: the payload read fails.
        have hbit' : s.getD 1 0 &&& 0x80 = 0 := not_not.mp hbit
        have hfps : fpHeaderSize s = 2 := by unfold fpHeaderSize; rw [if_neg hbit]
        have hfpl : fpLen s = s.getD 1 0 := by unfold fpLen; rw [if_neg hbit]
        rw [hfps, hfpl] at hlt
        have efind : FindPduSize (s.take 2) = .ok ⟨.fastPath, s.getD 1 0⟩ := by
          have hh : fpHeaderSize (s.take 2) = 2 := by
            unfold fpHeaderSize; rw [hg1, if_neg hbit]
          have hfind := findPduSize_fastPath (s := s.take 2) (by rw [hg0']; exact h0)
            (by rw [hh]; simp only [List.length_take]; omega)
          rw [hfind]
          unfold fpLen; rw [hg1, if_neg hbit]
        have e3 : readFull (s.getD 1 0) (s.drop 2) =
            .error (if (s.drop 2).isEmpty then IOErr.eof else IOErr.unexpectedEOF) :=
          readFull_err (by simp only [List.length_drop]; omega)
        simp only [ReadFrame, e1, exc_mapError_ok, exc_bind_ok, hg0, h0, ne_eq,
          not_true, not_false_iff, exc_pure, reduceIte, e2, ht2, hg1, hbit', efind, e3,
          exc_mapError_err, exc_bind_err, eofToUnexpected_ite]
  · -- TPKT discriminator
    have e1 : readFull MinHeaderSize s = .ok (s.take 1, s.drop 1) :=
      readFull_ok (by unfold MinHeaderSize; omega)
    have hg0 : (s.take 1).getD 0 0 = s.getD 0 0 := getD_take (by omega)
    by_cases hl4 : s.length < 4
    · -- the 3-byte header extension read fails.
      have e2 : readFull (TPKTHeaderSize - MinHeaderSize) (s.drop 1) =
          .error (if (s.drop 1).isEmpty then IOErr.eof else IOErr.unexpectedEOF) :=
        readFull_err (by simp only [List.length_drop]; unfold TPKTHeaderSize MinHeaderSize; omega)
      simp only [ReadFrame, e1, exc_mapError_ok, exc_bind_ok, hg0, h3, ne_eq,
        (by decide : ¬ (3 : Nat) = 0), reduceIte, e2, exc_mapError_err, exc_bind_err,
        eofToUnexpected_ite]
    · -- full header available, so the declared-length payload read fails.
      rcases hC with hbad | ⟨hv, h4, hlt⟩
      · omega
      have e2 : readFull (TPKTHeaderSize - MinHeaderSize) (s.drop 1) =
          .ok ((s.drop 1).take 3, s.drop 4) := by
        rw [readFull_ok (by simp only [List.length_drop]; unfold TPKTHeaderSize MinHeaderSize; omega)]
        rw [List.drop_drop]
        rfl
      have ht4 : s.take 1 ++ (s.drop 1).take 3 = s.take 4 := (s.take_add 1 3).symm
      have hg0' : (s.take 4).getD 0 0 = s.getD 0 0 := getD_take (by omega)
      have hg2 : (s.take 4).getD 2 0 = s.getD 2 0 := getD_take (by omega)
      have hg3 : (s.take 4).getD 3 0 = s.getD 3 0 := getD_take (by omega)
      have efind : FindPduSize (s.take 4) = .ok ⟨.x224, tpktLen s⟩ := by
        have hfind := findPduSize_tpkt (s := s.take 4) (by rw [hg0']; exact hv)
          (by simp only [List.length_take]; omega)
          (by unfold tpktLen; rw [hg2, hg3]; exact h4)
        rw [hfind]
        unfold tpktLen; rw [hg2, hg3]
      have hni : ¬ ((tpktLen s : Int) - (TPKTHeaderSize : Int) < 0) := by
        unfold TPKTHeaderSize; push_cast; omega
      have hpi : (0 : Int) < (tpktLen s : Int) - (TPKTHeaderSize : Int) := by
        unfold TPKTHeaderSize; push_cast; omega
      have htn : ((tpktLen s : Int) - (TPKTHeaderSize : Int)).toNat = tpktLen s - 4 := by
        unfold TPKTHeaderSize; omega
      have e3 : readFull (tpktLen s - 4) (s.drop 4) =
          .error (if (s.drop 4).isEmpty then IOErr.eof else IOErr.unexpectedEOF) :=
        readFull_err (by simp only [List.length_drop]; omega)
      simp only [ReadFrame, e1, exc_mapError_ok, exc_bind_ok, hg0, hv, ne_eq,
        (by decide : (3 : Nat) &&& 3 = 3), (by decide : ¬ (3 : Nat) = 0), exc_pure,
        reduceIte, e2, ht4, efind, if_neg hni, if_pos hpi, htn, e3,
        exc_mapError_err, exc_bind_err, eofToUnexpected_ite]

/-- C5 witness: the stream `0x03 0x00 0x00 0x08 AA` declares an 8-byte frame
but ends after 5 bytes; reading it fails with the unexpected-end-of-stream
condition. -/
theorem readFrame_incomplete_witness :
    (∀ b ∈ ([0x03, 0x00, 0x00, 0x08, 0xAA] : List Nat), b < 256) ∧
    Incomplete [0x03, 0x00, 0x00, 0x08, 0xAA] ∧
    ReadFrame [0x03, 0x00, 0x00, 0x08, 0xAA] = .error (.ioErr .unexpectedEOF) := by
  refine ⟨by decide, ?_, ?_⟩
  · exact Or.inr (Or.inr ⟨by decide, by decide, Or.inr ⟨by decide, by decide, by decide⟩⟩)
  · exact (readFrame_incomplete [0x03, 0x00, 0x00, 0x08, 0xAA] (by decide)
      (Or.inr (Or.inr ⟨by decide, by decide,
        Or.inr ⟨by decide, by decide, by decide⟩⟩))).1

end Tpkt

namespace Tpkt

/-- C6: frame detection on a malformed header — a first byte with low two
bits 01 or 10 yields the unrecognized-discriminator error; low two bits 11
with a version byte other than 3 yields the invalid-TPKT-version error; a
valid version byte 3 whose big-endian total length is smaller than the
4-byte header yields the invalid-length error. -/
theorem findPduSize_malformed (buf : List Nat) (hb : ∀ b ∈ buf, b < 256)
    (h1 : 1 ≤ buf.length) :
    ((buf.getD 0 0 &&& 0b11 = 1 ∨ buf.getD 0 0 &&& 0b11 = 2) →
      FindPduSize buf = .error .invalidAction) ∧
    (buf.getD 0 0 &&& 0b11 = 3 → buf.getD 0 0 ≠ 3 → 4 ≤ buf.length →
      FindPduSize buf = .error .invalidVersion) ∧
    (buf.getD 0 0 = 3 → 4 ≤ buf.length → tpktLen buf < 4 →
      FindPduSize buf = .error .invalidLength) := by
  refine ⟨fun hcode => ?_, fun hcode hver h4 => ?_, fun hver h4 hlen => ?_⟩
  · unfold FindPduSize
    rw [if_neg (show ¬ buf.length < MinHeaderSize by unfold MinHeaderSize; omega)]
    rcases hcode with hcode | hcode <;>
      rw [if_neg (by rw [hcode]; decide), if_neg (by rw [hcode]; decide)]
  · unfold FindPduSize
    rw [if_neg (show ¬ buf.length < MinHeaderSize by unfold MinHeaderSize; omega),
      if_neg (by rw [hcode]; decide), if_pos hcode,
      if_neg (show ¬ buf.length < TPKTHeaderSize by unfold TPKTHeaderSize; omega),
      if_pos hver]
  · unfold tpktLen at hlen
    unfold FindPduSize
    rw [if_neg (show ¬ buf.length < MinHeaderSize by unfold MinHeaderSize; omega),
      if_neg (by rw [hver]; decide), if_pos (by rw [hver]; decide),
      if_neg (show ¬ buf.length < TPKTHeaderSize by unfold TPKTHeaderSize; omega),
      if_neg (not_not_intro hver), if_pos (by unfold TPKTHeaderSize; omega)]

/-- C6 witness: byte 0x01 (bits 01) is an unrecognized discriminator; byte
0x07 (bits 11, version 7) fails the version check; a TPKT header declaring
total length 2 fails the minimum-length check. -/
theorem findPduSize_malformed_witness :
    FindPduSize [0x01] = .error .invalidAction ∧
    FindPduSize [0x07, 0x00, 0x00, 0x08] = .error .invalidVersion ∧
    FindPduSize [0x03, 0x00, 0x00, 0x02] = .error .invalidLength := by
  refine ⟨?_, ?_, ?_⟩
  · exact (findPduSize_malformed [0x01] (by decide) (by decide)).1 (by decide)
  · exact (findPduSize_malformed [0x07, 0x00, 0x00, 0x08] (by decide) (by decide)).2.1
      (by decide) (by decide) (by decide)
  · exact (findPduSize_malformed [0x03, 0x00, 0x00, 0x02] (by decide) (by decide)).2.2
      (by decide) (by decide) (by decide)

end Tpkt

namespace Proxy

/-- C10: for every payload, the adapter's Write reports a written count of
`len(p)` together with exactly the underlying WebSocket error; in
particular when the underlying write fails the caller observes a
full-length count alongside a non-`none` error. -/
theorem wsWrite_full_count (w : wsReadWriteCloser) (p : List Nat) :
    (w.Write p).1 = p.length ∧
    ∀ e : WsError, w.writeMessage p = some e → w.Write p = (p.length, some e) := by
  refine ⟨rfl, fun e he => ?_⟩
  unfold wsReadWriteCloser.Write
  rw [he]

/-- C10 witness: with an underlying WriteMessage that always fails with
error code 7, writing a 3-byte payload reports count 3 and the error. -/
theorem wsWrite_full_count_witness :
    (wsReadWriteCloser.Write ⟨fun _ => some ⟨7⟩⟩ [1, 2, 3]).1 = 3 ∧
    wsReadWriteCloser.Write ⟨fun _ => some ⟨7⟩⟩ [1, 2, 3] = (3, some ⟨7⟩) := by
  refine ⟨(wsWrite_full_count ⟨fun _ => some ⟨7⟩⟩ [1, 2, 3]).1, ?_⟩
  exact (wsWrite_full_count ⟨fun _ => some ⟨7⟩⟩ [1, 2, 3]).2 ⟨7⟩ rfl

end Proxy

namespace Asn1

/-! Consumption lemmas: every successful header parse consumes at least one
byte.  They justify the termination of `parseSeqOfOctets` below. -/

theorem parseBase128Rec_suffix {sh acc : Nat} {s r : List Nat} {v : Nat}
    (h : parseBase128Rec sh acc s = .ok (v, r)) : r.length < s.length := by
  induction s generalizing sh acc with
  | nil => simp [parseBase128Rec] at h
  | cons b rest ih =>
    unfold parseBase128Rec at h
    by_cases h5 : sh = 5
    · simp [h5] at h
    · rw [if_neg h5] at h
      by_cases h80 : sh = 0 ∧ b = 0x80
      · simp [h80] at h
      · rw [if_neg h80] at h
        by_cases hlow : b &&& 0x80 = 0
        · rw [if_pos hlow] at h
          by_cases hbig : 2147483647 < (acc <<< 7) ||| (b &&& 0x7F)
          · simp [hbig] at h
          · rw [if_neg hbig] at h
            injection h with h
            injection h with _ h2
            subst h2
            simp
        · rw [if_neg hlow] at h
          have := ih h
          simp at this ⊢
          omega

theorem parseLongLen_suffix {k acc : Nat} {s r : List Nat} {v : Nat}
    (h : parseLongLen k acc s = .ok (v, r)) : r.length ≤ s.length := by
  induction k generalizing acc s with
  | zero =>
    unfold parseLongLen at h
    split at h
    · simp at h
    · injection h with h
      injection h with _ h2
      subst h2
      exact le_refl _
  | succ k ih =>
    match s with
    | [] => simp [parseLongLen] at h
    | b :: rest =>
      unfold parseLongLen at h
      split at h
      · simp at h
      · split at h
        · simp at h
        · have := ih h
          simp at this ⊢
          omega

theorem parseLen_suffix {s r : List Nat} {v : Nat}
    (h : parseLen s = .ok (v, r)) : r.length < s.length := by
  match s with
  | [] => simp [parseLen] at h
  | b :: rest =>
    simp only [parseLen] at h
    split at h
    · injection h with h
      injection h with _ h2
      subst h2
      simp
    · split at h
      · simp at h
      · have := parseLongLen_suffix h
        simp at this ⊢
        omega

theorem parseTagAndLength_suffix {s r : List Nat} {t : TagLen}
    (h : parseTagAndLength s = .ok (t, r)) : r.length < s.length := by
  match s with
  | [] => simp [parseTagAndLength] at h
  | b :: rest =>
    simp only [parseTagAndLength] at h
    split at h
    · cases hb : parseBase128Int rest with
      | error e => rw [hb] at h; simp at h
      | ok p =>
        rw [hb] at h
        obtain ⟨tag, rest1⟩ := p
        simp only at h
        split at h
        · simp at h
        · cases hl : parseLen rest1 with
          | error e => rw [hl] at h; simp at h
          | ok q =>
            rw [hl] at h
            obtain ⟨len, rest2⟩ := q
            simp only at h
            injection h with h
            injection h with _ h2
            subst h2
            have h1 := parseBase128Rec_suffix hb
            have h2 := parseLen_suffix hl
            simp at h1 ⊢
            omega
    · cases hl : parseLen rest with
      | error e => rw [hl] at h; simp at h
      | ok q =>
        rw [hl] at h
        obtain ⟨len, rest1⟩ := q
        simp only at h
        injection h with h
        injection h with _ h2
        subst h2
        have := parseLen_suffix hl
        simp at this ⊢
        omega

end Asn1

namespace Asn1

theorem shl_or_eq_add {k a b : Nat} (h : b < 2 ^ k) : (a <<< k) ||| b = a * 2 ^ k + b := by
  apply Nat.eq_of_testBit_eq
  intro i
  rw [Nat.testBit_or, Nat.testBit_shiftLeft]
  rcases Nat.lt_or_ge i k with hi | hi
  · have h1 : decide (k ≤ i) = false := by simp [Nat.not_le.mpr hi]
    rw [h1, Bool.false_and, Bool.false_or]
    have hmod : (a * 2 ^ k + b) % 2 ^ k = b := by
      rw [Nat.mul_comm, Nat.mul_add_mod]
      exact Nat.mod_eq_of_lt h
    have h3 : ((a * 2 ^ k + b) % 2 ^ k).testBit i = (a * 2 ^ k + b).testBit i := by
      rw [Nat.testBit_mod_two_pow]
      simp [hi]
    rw [← h3, hmod]
  · obtain ⟨j, rfl⟩ : ∃ j, i = k + j := ⟨i - k, by omega⟩
    have h1 : decide (k ≤ k + j) = true := by simp
    rw [h1, Bool.true_and]
    have hb : b.testBit (k + j) = false :=
      Nat.testBit_lt_two_pow (lt_of_lt_of_le h (Nat.pow_le_pow_right (by norm_num) (by omega)))
    rw [hb, Bool.or_false]
    have hdiv : (a * 2 ^ k + b) / 2 ^ k = a := by
      rw [Nat.mul_comm, Nat.mul_add_div (Nat.two_pow_pos k), Nat.div_eq_of_lt h, Nat.add_zero]
    have h2 : (a * 2 ^ k + b).testBit (k + j) = ((a * 2 ^ k + b) >>> k).testBit j := by
      rw [Nat.testBit_shiftRight]
    rw [h2, Nat.shiftRight_eq_div_pow, hdiv]
    congr 1
    omega

theorem and_255_eq_mod (x : Nat) : x &&& 255 = x % 256 := by
  have h : (255 : Nat) = 2 ^ 8 - 1 := by norm_num
  rw [h, Nat.and_pow_two_sub_one_eq_mod]

theorem and_128_of_lt {x : Nat} (h : x < 128) : x &&& 128 = 0 := by
  apply Nat.eq_of_testBit_eq
  intro i
  rw [Nat.testBit_and, Nat.zero_testBit]
  rcases eq_or_ne i 7 with rfl | hne
  · have h2 : x.testBit 7 = false := Nat.testBit_lt_two_pow (by norm_num; omega)
    simp [h2]
  · have h3 : Nat.testBit 128 i = false := by
      rw [show (128 : Nat) = 2 ^ 7 by norm_num, Nat.testBit_two_pow]
      simp [Ne.symm hne]
    simp [h3]

theorem and_127_of_lt {x : Nat} (h : x < 128) : x &&& 127 = x := by
  have h1 : (127 : Nat) = 2 ^ 7 - 1 := by norm_num
  rw [h1, Nat.and_pow_two_sub_one_eq_mod]
  omega

theorem shr_combine (n m : Nat) :
    ((n >>> (m + 8)) <<< 8) ||| ((n >>> m) &&& 255) = n >>> m := by
  rw [and_255_eq_mod, shl_or_eq_add (show (n >>> m) % 256 < 2 ^ 8 by
    have := Nat.mod_lt (n >>> m) (show 0 < 256 by norm_num)
    norm_num
    omega)]
  rw [Nat.shiftRight_eq_div_pow, Nat.shiftRight_eq_div_pow, pow_add, ← Nat.div_div_eq_div_mul]
  have := Nat.div_add_mod (n / 2 ^ m) 256
  norm_num
  omega

theorem shr_combine8 (n : Nat) : ((n >>> 8) <<< 8) ||| (n &&& 255) = n := by
  have h := shr_combine n 0
  simpa [Nat.shiftRight_zero] using h

theorem shr_combine16 (n : Nat) : ((n >>> 16) <<< 8) ||| ((n >>> 8) &&& 255) = n >>> 8 := by
  have h := shr_combine n 8
  norm_num at h
  exact h

theorem shr_combine24 (n : Nat) : ((n >>> 24) <<< 8) ||| ((n >>> 16) &&& 255) = n >>> 16 := by
  have h := shr_combine n 16
  norm_num at h
  exact h

theorem parseLongLen_step {k acc b : Nat} {rest : List Nat}
    (h1 : acc < 2 ^ 23) (h2 : (acc <<< 8) ||| b ≠ 0) :
    parseLongLen (k + 1) acc (b :: rest) = parseLongLen k ((acc <<< 8) ||| b) rest := by
  conv_lhs => unfold parseLongLen
  rw [if_neg (by omega), if_neg h2]

theorem parseLongLen_done {acc : Nat} {rest : List Nat} (h : 0x80 ≤ acc) :
    parseLongLen 0 acc rest = .ok (acc, rest) := by
  unfold parseLongLen
  rw [if_neg (by omega)]

theorem zero_shl_or (b : Nat) : (0 <<< 8) ||| b = b := by
  simp [Nat.zero_shiftLeft]

theorem parseLen_lenBytes {n : Nat} (h : n < 2 ^ 31) (rest : List Nat) :
    parseLen (lenBytes n ++ rest) = .ok (n, rest) := by
  have hsr8 : n >>> 8 = n / 256 := Nat.shiftRight_eq_div_pow n 8
  have hsr16 : n >>> 16 = n / 65536 := Nat.shiftRight_eq_div_pow n 16
  have hsr24 : n >>> 24 = n / 16777216 := Nat.shiftRight_eq_div_pow n 24
  have hand : ∀ m : Nat, m &&& 255 = m % 256 := and_255_eq_mod
  rcases Nat.lt_or_ge n 0x80 with h0 | h0
  · -- short form
    have hb : lenBytes n ++ rest = n :: rest := by
      unfold lenBytes
      rw [if_pos h0]
      rfl
    rw [hb]
    simp only [parseLen]
    rw [if_pos (and_128_of_lt h0), and_127_of_lt h0]
  rcases Nat.lt_or_ge n (2 ^ 8) with h1 | h1
  · -- one length byte
    have hLL : lenLength n = 1 := by
      unfold lenLength
      rw [if_pos h1]
    have hd : n &&& 255 = n := by rw [hand]; omega
    have hb : lenBytes n ++ rest = 129 :: n :: rest := by
      unfold lenBytes lenDigits
      rw [if_neg (by omega), hLL]
      simp only [List.range, List.range.loop, List.map]
      norm_num [hd, (by decide : (128 : Nat) ||| 1 = 129)]
    rw [hb]
    simp only [parseLen]
    rw [if_neg (by decide)]
    have hnb : (129 : Nat) &&& 127 = 1 := by decide
    simp only [hnb]
    rw [if_neg (by decide), parseLongLen_step (by norm_num) (by rw [zero_shl_or]; omega),
      zero_shl_or, parseLongLen_done (by omega)]
  rcases Nat.lt_or_ge n (2 ^ 16) with h2 | h2
  · -- two length bytes
    have hLL : lenLength n = 2 := by
      unfold lenLength
      rw [if_neg (by omega), if_pos h2]
    have hd0 : (n >>> 8) &&& 255 = n >>> 8 := by rw [hand]; omega
    have hb : lenBytes n ++ rest = 130 :: (n >>> 8) :: (n &&& 255) :: rest := by
      unfold lenBytes lenDigits
      rw [if_neg (by omega), hLL]
      simp only [List.range, List.range.loop, List.map]
      norm_num [hd0, (by decide : (128 : Nat) ||| 2 = 130)]
    rw [hb]
    simp only [parseLen]
    rw [if_neg (by decide)]
    have hnb : (130 : Nat) &&& 127 = 2 := by decide
    simp only [hnb]
    rw [if_neg (by decide),
      parseLongLen_step (by norm_num) (by rw [zero_shl_or]; omega), zero_shl_or,
      parseLongLen_step (by omega) (by rw [shr_combine8]; omega), shr_combine8,
      parseLongLen_done (by omega)]
  rcases Nat.lt_or_ge n (2 ^ 24) with h3 | h3
  · -- three length bytes
    have hLL : lenLength n = 3 := by
      unfold lenLength
      rw [if_neg (by omega), if_neg (by omega), if_pos h3]
    have hd0 : (n >>> 16) &&& 255 = n >>> 16 := by rw [hand]; omega
    have hb : lenBytes n ++ rest =
        131 :: (n >>> 16) :: ((n >>> 8) &&& 255) :: (n &&& 255) :: rest := by
      unfold lenBytes lenDigits
      rw [if_neg (by omega), hLL]
      simp only [List.range, List.range.loop, List.map]
      norm_num [hd0, (by decide : (128 : Nat) ||| 3 = 131)]
    rw [hb]
    simp only [parseLen]
    rw [if_neg (by decide)]
    have hnb : (131 : Nat) &&& 127 = 3 := by decide
    simp only [hnb]
    rw [if_neg (by decide),
      parseLongLen_step (by norm_num) (by rw [zero_shl_or]; omega), zero_shl_or,
      parseLongLen_step (by omega) (by rw [shr_combine16]; omega), shr_combine16,
      parseLongLen_step (by omega) (by rw [shr_combine8]; omega), shr_combine8,
      parseLongLen_done (by omega)]
  · -- four length bytes
    have hLL : lenLength n = 4 := by
      unfold lenLength
      rw [if_neg (by omega), if_neg (by omega), if_neg (by omega), if_pos (by omega)]
    have hd0 : (n >>> 24) &&& 255 = n >>> 24 := by rw [hand]; omega
    have hb : lenBytes n ++ rest =
        132 :: (n >>> 24) :: ((n >>> 16) &&& 255) :: ((n >>> 8) &&& 255) :: (n &&& 255) :: rest := by
      unfold lenBytes lenDigits
      rw [if_neg (by omega), hLL]
      simp only [List.range, List.range.loop, List.map]
      norm_num [hd0, (by decide : (128 : Nat) ||| 4 = 132)]
    rw [hb]
    simp only [parseLen]
    rw [if_neg (by decide)]
    have hnb : (132 : Nat) &&& 127 = 4 := by decide
    simp only [hnb]
    rw [if_neg (by decide),
      parseLongLen_step (by norm_num) (by rw [zero_shl_or]; omega), zero_shl_or,
      parseLongLen_step (by omega) (by rw [shr_combine24]; omega), shr_combine24,
      parseLongLen_step (by omega) (by rw [shr_combine16]; omega), shr_combine16,
      parseLongLen_step (by omega) (by rw [shr_combine8]; omega), shr_combine8,
      parseLongLen_done (by omega)]

end Asn1

namespace Asn1

theorem parseTagAndLength_tlv {t : Nat} {content rest : List Nat}
    (ht : t &&& 0x1F ≠ 0x1F) (hlen : content.length < 2 ^ 31) :
    parseTagAndLength (tlv t content ++ rest) =
      .ok (⟨t >>> 6, t &&& 0x20 == 0x20, t &&& 0x1F, content.length⟩, content ++ rest) := by
  have hb : tlv t content ++ rest = t :: (lenBytes content.length ++ (content ++ rest)) := by
    unfold tlv
    simp [List.append_assoc]
  rw [hb]
  simp only [parseTagAndLength]
  rw [if_neg ht, parseLen_lenBytes hlen]

theorem tlv_ne_nil (t : Nat) (c : List Nat) : tlv t c ≠ [] := by
  unfold tlv
  simp

theorem length_lenBytes_le (n : Nat) : (lenBytes n).length ≤ 9 := by
  unfold lenBytes lenDigits lenLength
  split
  · simp
  · simp only [List.length_cons, List.length_map, List.length_range]
    split <;> (try split) <;> (try split) <;> (try split) <;> (try split) <;>
      (try split) <;> (try split) <;> omega

theorem length_tlv (t : Nat) (c : List Nat) :
    (tlv t c).length = 1 + (lenBytes c.length).length + c.length := by
  unfold tlv
  simp [List.length_cons, List.length_append]
  omega

theorem length_tlv_le (t : Nat) (c : List Nat) :
    (tlv t c).length ≤ c.length + 10 := by
  have h1 := length_tlv t c
  have h2 := length_lenBytes_le c.length
  omega

theorem length_tlv_gt (t : Nat) (c : List Nat) :
    c.length < (tlv t c).length := by
  have h1 := length_tlv t c
  omega

/-- parseExplicitField on a present member: the stream starts with the
member's explicit wrapper around one inner TLV whose tag matches the
member's Go type. -/
theorem parseExplicitField_present {α : Type} {tagNum : Nat} {opt : Bool} {dflt : α}
    {uM : TagLen → Except Error (Option (List Nat → Except Error α))}
    {it : Nat} {content rest : List Nat} {f : List Nat → Except Error α} {v : α}
    (hwb1 : (0xA0 + tagNum) >>> 6 = 2)
    (hwb2 : (0xA0 + tagNum) &&& 0x1F = tagNum)
    (hwb3 : (0xA0 + tagNum) &&& 0x1F ≠ 0x1F)
    (hwb4 : ((0xA0 + tagNum) &&& 0x20 == 0x20) = true)
    (hit : it &&& 0x1F ≠ 0x1F)
    (hwlen : (tlv it content).length < 2 ^ 31)
    (hclen : content.length < 2 ^ 31)
    (huM : uM ⟨it >>> 6, it &&& 0x20 == 0x20, it &&& 0x1F, content.length⟩ = .ok (some f))
    (hf : f content = .ok v) :
    parseExplicitField tagNum opt dflt uM (encExplicit tagNum (tlv it content) ++ rest) =
      .ok (v, rest) := by
  have hstream : encExplicit tagNum (tlv it content) ++ rest =
      (0xA0 + tagNum) :: (lenBytes (tlv it content).length ++ (tlv it content ++ rest)) := by
    unfold encExplicit tlv
    simp [List.append_assoc]
  have houter : parseTagAndLength (encExplicit tagNum (tlv it content) ++ rest) =
      .ok (⟨(0xA0 + tagNum) >>> 6, (0xA0 + tagNum) &&& 0x20 == 0x20,
        (0xA0 + tagNum) &&& 0x1F, (tlv it content).length⟩, tlv it content ++ rest) := by
    unfold encExplicit
    exact parseTagAndLength_tlv hwb3 hwlen
  have hinner := @parseTagAndLength_tlv it content rest hit hclen
  have hic : (tlv it content ++ rest).isEmpty = false := by
    unfold tlv
    simp
  have hlenne : (tlv it content).length ≠ 0 := by
    unfold tlv
    simp
  have htake : (content ++ rest).take content.length = content := List.take_left content rest
  have hdrop : (content ++ rest).drop content.length = rest := List.drop_left content rest
  have hnl : ¬ ((content ++ rest).length < content.length) := by
    simp [List.length_append]
  rw [hstream]
  simp only [parseExplicitField]
  rw [← hstream, houter]
  simp only [hwb1, hwb2, hwb4, hic, hlenne, hinner, huM, htake, hdrop, hf,
    Bool.false_eq_true, if_false, ne_eq, not_false_iff, reduceIte, and_true, and_self,
    eq_self_iff_true, true_and, or_true, if_true, hnl]

end Asn1

namespace Asn1

/-- parseExplicitField on an optional member when the stream starts with a
different member's wrapper: the tag mismatch restores the original
position and yields the zero value. -/
theorem parseExplicitField_skip {α : Type} {tagNum m : Nat} {dflt : α}
    {uM : TagLen → Except Error (Option (List Nat → Except Error α))}
    {inner rest : List Nat}
    (hwb2 : (0xA0 + m) &&& 0x1F = m)
    (hwb3 : (0xA0 + m) &&& 0x1F ≠ 0x1F)
    (hne : m ≠ tagNum)
    (hinner : inner ≠ [])
    (hwlen : inner.length < 2 ^ 31) :
    parseExplicitField tagNum true dflt uM (encExplicit m inner ++ rest) =
      .ok (dflt, encExplicit m inner ++ rest) := by
  have hstream : encExplicit m inner ++ rest =
      (0xA0 + m) :: (lenBytes inner.length ++ (inner ++ rest)) := by
    unfold encExplicit tlv
    simp [List.append_assoc]
  have houter : parseTagAndLength (encExplicit m inner ++ rest) =
      .ok (⟨(0xA0 + m) >>> 6, (0xA0 + m) &&& 0x20 == 0x20,
        (0xA0 + m) &&& 0x1F, inner.length⟩, inner ++ rest) := by
    unfold encExplicit
    exact parseTagAndLength_tlv hwb3 hwlen
  have hic : (inner ++ rest).isEmpty = false := by
    cases inner with
    | nil => exact absurd rfl hinner
    | cons a l => simp
  rw [hstream]
  simp only [parseExplicitField]
  rw [← hstream, houter]
  simp only [hwb2, hic, Bool.false_eq_true, if_false, hne, false_and, and_false, if_true,
    reduceIte]

/-- parseExplicitField on an optional member at the end of the buffer:
the zero value. -/
theorem parseExplicitField_nil {α : Type} {tagNum : Nat} {dflt : α}
    {uM : TagLen → Except Error (Option (List Nat → Except Error α))} :
    parseExplicitField tagNum true dflt uM [] = .ok (dflt, []) := rfl

/-- parseSeqOfOctetsAux inverts the concatenation of OCTET STRING TLVs
whenever the fuel covers the buffer length. -/
theorem parseSeqAux_encOctets (certs : List (List Nat)) (fuel : Nat)
    (hfuel : ((certs.map encOctet).flatten).length ≤ fuel)
    (hsz : ∀ c ∈ certs, c.length < 2 ^ 31) :
    parseSeqOfOctetsAux fuel ((certs.map encOctet).flatten) = .ok certs := by
  induction certs generalizing fuel with
  | nil => cases fuel <;> rfl
  | cons c cs ih =>
    have hflat : ((c :: cs).map encOctet).flatten = encOctet c ++ ((cs.map encOctet).flatten) := by
      simp
    have hcsz : c.length < 2 ^ 31 := hsz c (List.mem_cons_self c cs)
    have htlv : parseTagAndLength (encOctet c ++ ((cs.map encOctet).flatten)) =
        .ok (⟨(0x04 : Nat) >>> 6, (0x04 : Nat) &&& 0x20 == 0x20, (0x04 : Nat) &&& 0x1F,
          c.length⟩, c ++ ((cs.map encOctet).flatten)) := by
      unfold encOctet
      exact parseTagAndLength_tlv (by decide) hcsz
    have hlen1 : 1 ≤ (encOctet c ++ ((cs.map encOctet).flatten)).length := by
      unfold encOctet tlv
      simp
    obtain ⟨fuel', rfl⟩ : ∃ f, fuel = f + 1 := by
      refine ⟨fuel - 1, ?_⟩
      rw [hflat] at hfuel
      omega
    have hcons : ∃ x xs, encOctet c ++ ((cs.map encOctet).flatten) = x :: xs := by
      unfold encOctet tlv
      exact ⟨_, _, rfl⟩
    obtain ⟨x, xs, hxs⟩ := hcons
    rw [hflat, hxs]
    simp only [parseSeqOfOctetsAux]
    rw [← hxs, htlv]
    have htake : (c ++ ((cs.map encOctet).flatten)).take c.length = c := List.take_left _ _
    have hdrop : (c ++ ((cs.map encOctet).flatten)).drop c.length = (cs.map encOctet).flatten :=
      List.drop_left _ _
    have hnl : ¬ ((c ++ ((cs.map encOctet).flatten)).length < c.length) := by
      simp [List.length_append]
    have hrec : parseSeqOfOctetsAux fuel' ((cs.map encOctet).flatten) = .ok cs := by
      apply ih
      · rw [hflat] at hfuel
        have : 1 ≤ (encOctet c).length := by unfold encOctet tlv; simp
        simp only [List.length_append] at hfuel
        omega
      · intro d hd
        exact hsz d (List.mem_cons_of_mem c hd)
    simp only [hnl, htake, hdrop, hrec, reduceIte, Bool.false_eq_true, if_false,
      not_true, not_false_iff, if_true, and_self, and_true, true_and]
    rw [if_neg (by decide)]

end Asn1

namespace Rdcleanpath

/-- C8 counterexample: the claim says every field of a constructed
Handshake Response other than version, x224ConnectionPdu and
serverCertChain is left absent, but `NewResp` also populates `ServerAddr`
with the supplied server address — here the non-empty address "1". -/
theorem newResp_serverAddr_counterexample :
    (NewResp [0x31] (some [0x01]) (some [[0x02]])).serverAddr = [0x31] ∧
    (NewResp [0x31] (some [0x01]) (some [[0x02]])).serverAddr ≠ [] := by
  exact ⟨rfl, by decide⟩

/-- C8 amended: for every server address, backend connection-confirm PDU
and certificate chain, `NewResp` fixes the version to the constant
`3389 + 1` ("handshake protocol version 1"), copies `x224ConnectionPdu`,
`serverCertChain` — and also `serverAddr` — verbatim, and leaves every
remaining field (error, destination, proxyAuth, serverAuth,
preconnectionBlob) at its absent zero value. -/
theorem newResp_fields (addr : List Nat) (x224 : Option (List Nat))
    (chain : Option (List (List Nat))) :
    NewResp addr x224 chain =
      { version := 3389 + 1
        error := zeroErr
        destination := []
        proxyAuth := []
        serverAuth := []
        preconnectionBlob := []
        x224ConnectionPdu := x224
        serverCertChain := chain
        serverAddr := addr } := rfl

/-- C4 counterexample: a buffer whose destination field (tag 2) is present
with an empty PrintableString decodes to exactly the same structure as a
buffer without the field, so decoding does not represent "absent" in a way
distinguishable from "present but empty" for string-typed fields. -/
theorem pdu_absent_vs_empty_counterexample :
    Unmarshal [0x30, 0x09, 0xA0, 0x03, 0x02, 0x01, 0x01, 0xA2, 0x02, 0x13, 0x00] =
      Unmarshal [0x30, 0x05, 0xA0, 0x03, 0x02, 0x01, 0x01] ∧
    ([0x30, 0x09, 0xA0, 0x03, 0x02, 0x01, 0x01, 0xA2, 0x02, 0x13, 0x00] : List Nat) ≠
      [0x30, 0x05, 0xA0, 0x03, 0x02, 0x01, 0x01] ∧
    Unmarshal [0x30, 0x05, 0xA0, 0x03, 0x02, 0x01, 0x01] =
      .ok ⟨1, zeroErr, [], [], [], [], none, none, []⟩ := by
  refine ⟨by decide, by decide, by decide⟩

/-- C4 amended: absent optional fields do not appear in the encoded byte
form (a PDU with every optional field absent encodes to just the version
member); the byte-sequence-valued fields do distinguish absent (`nil`)
from present-but-empty on both encode and decode; but string-valued fields
represent absence by the empty string, so an absent string field and a
present-but-empty one are indistinguishable after decoding. -/
theorem pdu_optional_encoding_amended :
    (∀ v : Int, Pdu.Marshal ⟨v, zeroErr, [], [], [], [], none, none, []⟩ =
      .ok (Asn1.tlv 0x30 (Asn1.encExplicit 0 (Asn1.encInt v)))) ∧
    (Pdu.Marshal ⟨1, zeroErr, [], [], [], [], some [], none, []⟩ =
        .ok [0x30, 0x09, 0xA0, 0x03, 0x02, 0x01, 0x01, 0xA6, 0x02, 0x04, 0x00] ∧
      Pdu.Marshal ⟨1, zeroErr, [], [], [], [], none, none, []⟩ =
        .ok [0x30, 0x05, 0xA0, 0x03, 0x02, 0x01, 0x01] ∧
      Unmarshal [0x30, 0x09, 0xA0, 0x03, 0x02, 0x01, 0x01, 0xA6, 0x02, 0x04, 0x00] =
        .ok ⟨1, zeroErr, [], [], [], [], some [], none, []⟩ ∧
      Unmarshal [0x30, 0x05, 0xA0, 0x03, 0x02, 0x01, 0x01] =
        .ok ⟨1, zeroErr, [], [], [], [], none, none, []⟩) ∧
    Unmarshal [0x30, 0x09, 0xA0, 0x03, 0x02, 0x01, 0x01, 0xA2, 0x02, 0x13, 0x00] =
      Unmarshal [0x30, 0x05, 0xA0, 0x03, 0x02, 0x01, 0x01] := by
  refine ⟨fun v => ?_, ⟨by decide, by decide, by decide, by decide⟩, by decide⟩
  simp [Pdu.Marshal, pduBody, zeroErr, Tpkt.exc_pure, Tpkt.exc_bind_ok]

end Rdcleanpath

namespace Rdcleanpath

theorem length_flatten_certs {c : List Nat} {certs : List (List Nat)} (hc : c ∈ certs) :
    c.length < ((certs.map Asn1.encOctet).flatten).length := by
  have h1 : Asn1.encOctet c ∈ certs.map Asn1.encOctet := List.mem_map_of_mem _ hc
  have h2 : (Asn1.encOctet c).length ≤ ((certs.map Asn1.encOctet).flatten).length := by
    rw [List.length_flatten]
    have h3 : (Asn1.encOctet c).length ∈ (certs.map Asn1.encOctet).map List.length :=
      List.mem_map_of_mem _ h1
    exact List.single_le_sum (fun a _ => Nat.zero_le a) _ h3
  have h4 : c.length < (Asn1.encOctet c).length := Asn1.length_tlv_gt _ _
  omega

theorem parsePduFields_newResp (addr x : List Nat) (certs : List (List Nat))
    (haddr : Asn1.utf8Valid addr = true)
    (hsum : x.length + ((certs.map Asn1.encOctet).flatten).length + addr.length <
      2 ^ 31 - 100) :
    parsePduFields
      (Asn1.encExplicit 0 (Asn1.encInt 3390) ++
       (Asn1.encExplicit 6 (Asn1.encOctet x) ++
        (Asn1.encExplicit 7 (Asn1.tlv 0x30 ((certs.map Asn1.encOctet).flatten)) ++
         (if addr = [] then [] else Asn1.encExplicit 9 (Asn1.encUTF8String addr))))) =
      .ok ⟨3390, zeroErr, [], [], [], [], some x, some certs, addr⟩ := by
  set cc := (certs.map Asn1.encOctet).flatten with hcc
  have hint : Asn1.encInt 3390 = Asn1.tlv 0x02 [13, 62] := by decide
  have hx4 : Asn1.encOctet x = Asn1.tlv 0x04 x := rfl
  have hutf : Asn1.encUTF8String addr = Asn1.tlv 0x0C addr := rfl
  -- size bounds
  have hxw : (Asn1.tlv 0x04 x).length < 2 ^ 31 := by
    have := Asn1.length_tlv_le 0x04 x
    omega
  have hxl : x.length < 2 ^ 31 := by omega
  have hccw : (Asn1.tlv 0x30 cc).length < 2 ^ 31 := by
    have := Asn1.length_tlv_le 0x30 cc
    omega
  have hccl : cc.length < 2 ^ 31 := by omega
  have haw : (Asn1.tlv 0x0C addr).length < 2 ^ 31 := by
    have := Asn1.length_tlv_le 0x0C addr
    omega
  have hal : addr.length < 2 ^ 31 := by omega
  -- step 1: version
  have h1 : ∀ rest, Asn1.parseExplicitField 0 false 0 Asn1.intMatch
      (Asn1.encExplicit 0 (Asn1.encInt 3390) ++ rest) = .ok ((3390 : Int), rest) := by
    intro rest
    rw [hint]
    exact Asn1.parseExplicitField_present (by decide) (by decide) (by decide) (by decide)
      (by decide) (by decide) (by decide) (by rfl) (by decide)
  -- skip steps for tags 1-5 over the x224 member
  have hskip : ∀ (k : Nat) (α : Type) (dflt : α)
      (uM : Asn1.TagLen → Except Asn1.Error (Option (List Nat → Except Asn1.Error α)))
      (hne : (6 : Nat) ≠ k) (rest : List Nat),
      Asn1.parseExplicitField k true dflt uM
        (Asn1.encExplicit 6 (Asn1.encOctet x) ++ rest) =
        .ok (dflt, Asn1.encExplicit 6 (Asn1.encOctet x) ++ rest) := by
    intro k α dflt uM hne rest
    rw [hx4]
    exact Asn1.parseExplicitField_skip (by decide) (by decide) hne
      (Asn1.tlv_ne_nil _ _) hxw
  -- step 7: x224 member
  have h7 : ∀ rest, Asn1.parseExplicitField 6 true none Asn1.octetMatch
      (Asn1.encExplicit 6 (Asn1.encOctet x) ++ rest) = .ok (some x, rest) := by
    intro rest
    rw [hx4]
    exact Asn1.parseExplicitField_present (by decide) (by decide) (by decide) (by decide)
      (by decide) hxw hxl (by rfl) (by rfl)
  -- step 8: certificate chain member
  have hseq : Asn1.parseSeqOfOctets cc = .ok certs := by
    unfold Asn1.parseSeqOfOctets
    exact Asn1.parseSeqAux_encOctets certs cc.length (le_refl _)
      (fun c hc => by
        have h := length_flatten_certs hc
        rw [← hcc] at h
        omega)
  have h8 : ∀ rest, Asn1.parseExplicitField 7 true none Asn1.chainMatch
      (Asn1.encExplicit 7 (Asn1.tlv 0x30 cc) ++ rest) = .ok (some certs, rest) := by
    intro rest
    refine Asn1.parseExplicitField_present (by decide) (by decide) (by decide) (by decide)
      (by decide) hccw hccl rfl ?_
    rw [hseq]
  -- step 9: server address member
  have h9 : ∀ rest, Asn1.parseExplicitField 9 true [] Asn1.strMatch
      (Asn1.encExplicit 9 (Asn1.encUTF8String addr) ++ rest) = .ok (addr, rest) := by
    intro rest
    rw [hutf]
    refine Asn1.parseExplicitField_present (by decide) (by decide) (by decide) (by decide)
      (by decide) haw hal rfl ?_
    simp only [Asn1.parseUTF8String, haddr, if_true]
  by_cases hae : addr = []
  · subst hae
    rw [if_pos rfl, List.append_nil]
    have h8n : Asn1.parseExplicitField 7 true none Asn1.chainMatch
        (Asn1.encExplicit 7 (Asn1.tlv 0x30 cc)) = .ok (some certs, []) := by
      have h := h8 []
      rwa [List.append_nil] at h
    simp only [parsePduFields, h1, Tpkt.exc_bind_ok, hskip 1 _ _ _ (by decide),
      hskip 2 _ _ _ (by decide), hskip 3 _ _ _ (by decide), hskip 4 _ _ _ (by decide),
      hskip 5 _ _ _ (by decide), h7, h8n, Asn1.parseExplicitField_nil, Tpkt.exc_pure]
  · rw [if_neg hae]
    have h9n : Asn1.parseExplicitField 9 true [] Asn1.strMatch
        (Asn1.encExplicit 9 (Asn1.encUTF8String addr)) = .ok (addr, []) := by
      have h := h9 []
      rwa [List.append_nil] at h
    simp only [parsePduFields, h1, Tpkt.exc_bind_ok, hskip 1 _ _ _ (by decide),
      hskip 2 _ _ _ (by decide), hskip 3 _ _ _ (by decide), hskip 4 _ _ _ (by decide),
      hskip 5 _ _ _ (by decide), h7, h8, h9n, Tpkt.exc_pure]

end Rdcleanpath

namespace Rdcleanpath

theorem marshal_newResp (addr x : List Nat) (certs : List (List Nat)) :
    Pdu.Marshal (NewResp addr (some x) (some certs)) =
      .ok (Asn1.tlv 0x30
        (Asn1.encExplicit 0 (Asn1.encInt 3390) ++
         (Asn1.encExplicit 6 (Asn1.encOctet x) ++
          (Asn1.encExplicit 7 (Asn1.tlv 0x30 ((certs.map Asn1.encOctet).flatten)) ++
           (if addr = [] then [] else Asn1.encExplicit 9 (Asn1.encUTF8String addr)))))) := by
  have hv : (3389 + 1 : Int) = 3390 := by norm_num
  simp only [Pdu.Marshal, pduBody, NewResp, hv, Tpkt.exc_bind_ok, Tpkt.exc_pure,
    reduceIte, List.append_nil, List.nil_append, List.append_assoc]

end Rdcleanpath

namespace Rdcleanpath

theorem asn1UnmarshalPdu_tlv {body extra : List Nat} {p : Pdu}
    (hb : body.length < 2 ^ 31)
    (hpdu : parsePduFields body = .ok p) :
    asn1UnmarshalPdu (Asn1.tlv 0x30 body ++ extra) = .ok (p, extra) := by
  have hstream : Asn1.tlv 0x30 body ++ extra =
      0x30 :: (Asn1.lenBytes body.length ++ (body ++ extra)) := by
    unfold Asn1.tlv
    simp [List.append_assoc]
  have houter : Asn1.parseTagAndLength (Asn1.tlv 0x30 body ++ extra) =
      .ok (⟨(0x30 : Nat) >>> 6, (0x30 : Nat) &&& 0x20 == 0x20,
        (0x30 : Nat) &&& 0x1F, body.length⟩, body ++ extra) :=
    Asn1.parseTagAndLength_tlv (by decide) hb
  have htake : (body ++ extra).take body.length = body := List.take_left body extra
  have hdrop : (body ++ extra).drop body.length = extra := List.drop_left body extra
  have hnl : ¬ ((body ++ extra).length < body.length) := by
    simp [List.length_append]
  rw [hstream]
  simp only [asn1UnmarshalPdu]
  rw [← hstream, houter]
  simp only [(by decide : (0x30 : Nat) >>> 6 = 0),
    (by decide : (0x30 : Nat) &&& 0x1F = 16),
    (by decide : ((0x30 : Nat) &&& 0x20 == 0x20) = true),
    htake, hdrop, hnl, hpdu, reduceIte, and_self, eq_self_iff_true, true_and, if_true,
    if_false, not_false_iff]

end Rdcleanpath

namespace Rdcleanpath

theorem newResp_body_len (addr x : List Nat) (certs : List (List Nat))
    (hsum : x.length + ((certs.map Asn1.encOctet).flatten).length + addr.length <
      2 ^ 31 - 100) :
    (Asn1.encExplicit 0 (Asn1.encInt 3390) ++
     (Asn1.encExplicit 6 (Asn1.encOctet x) ++
      (Asn1.encExplicit 7 (Asn1.tlv 0x30 ((certs.map Asn1.encOctet).flatten)) ++
       (if addr = [] then [] else Asn1.encExplicit 9 (Asn1.encUTF8String addr))))).length <
      2 ^ 31 := by
  have h0 : (Asn1.encExplicit 0 (Asn1.encInt 3390)).length = 6 := by decide
  have h6a : (Asn1.encExplicit 6 (Asn1.encOctet x)).length ≤ (Asn1.encOctet x).length + 10 :=
    Asn1.length_tlv_le _ _
  have h6b : (Asn1.encOctet x).length ≤ x.length + 10 := Asn1.length_tlv_le _ _
  have h7a : (Asn1.encExplicit 7 (Asn1.tlv 0x30 ((certs.map Asn1.encOctet).flatten))).length ≤
      (Asn1.tlv 0x30 ((certs.map Asn1.encOctet).flatten)).length + 10 :=
    Asn1.length_tlv_le _ _
  have h7b : (Asn1.tlv 0x30 ((certs.map Asn1.encOctet).flatten)).length ≤
      ((certs.map Asn1.encOctet).flatten).length + 10 := Asn1.length_tlv_le _ _
  have h9 : (if addr = [] then ([] : List Nat)
      else Asn1.encExplicit 9 (Asn1.encUTF8String addr)).length ≤ addr.length + 20 := by
    by_cases hae : addr = []
    · rw [if_pos hae]
      simp
    · rw [if_neg hae]
      have ha : (Asn1.encExplicit 9 (Asn1.encUTF8String addr)).length ≤
          (Asn1.encUTF8String addr).length + 10 := Asn1.length_tlv_le _ _
      have hb : (Asn1.encUTF8String addr).length ≤ addr.length + 10 := Asn1.length_tlv_le _ _
      omega
  simp only [List.length_append]
  omega

/-- C3: decoding the codec's own encoding of a Handshake Response (version
3390, an X.224 connection PDU, a certificate chain of any length, a valid
UTF-8 server address, total content within the DER length bounds) succeeds
and returns a structure identical to the original, certificate chain order
included. -/
theorem newResp_roundtrip (addr x : List Nat) (certs : List (List Nat))
    (haddr : Asn1.utf8Valid addr = true)
    (hsum : x.length + ((certs.map Asn1.encOctet).flatten).length + addr.length <
      2 ^ 31 - 100) :
    ∃ der, Pdu.Marshal (NewResp addr (some x) (some certs)) = .ok der ∧
      Unmarshal der = .ok (NewResp addr (some x) (some certs)) := by
  have hNR : NewResp addr (some x) (some certs) =
      ⟨3390, zeroErr, [], [], [], [], some x, some certs, addr⟩ := by
    unfold NewResp
    norm_num
  refine ⟨_, marshal_newResp addr x certs, ?_⟩
  have hpdu := parsePduFields_newResp addr x certs haddr hsum
  have hb := newResp_body_len addr x certs hsum
  rw [hNR]
  have hU := @asn1UnmarshalPdu_tlv _ [] _ hb hpdu
  rw [List.append_nil] at hU
  simp only [Unmarshal, hU]
  rw [if_neg (by decide)]

theorem newResp_roundtrip_witness :
    Asn1.utf8Valid [104, 111, 115, 116] = true ∧
    ([1, 2, 3] : List Nat).length +
      ((([[0xAA], [0xBB, 0xCC]] : List (List Nat)).map Asn1.encOctet).flatten).length +
      ([104, 111, 115, 116] : List Nat).length < 2 ^ 31 - 100 ∧
    (∃ der, Pdu.Marshal (NewResp [104, 111, 115, 116] (some [1, 2, 3])
        (some [[0xAA], [0xBB, 0xCC]])) = .ok der ∧
      Unmarshal der = .ok (NewResp [104, 111, 115, 116] (some [1, 2, 3])
        (some [[0xAA], [0xBB, 0xCC]]))) :=
  ⟨by decide, by decide,
    newResp_roundtrip [104, 111, 115, 116] [1, 2, 3] [[0xAA], [0xBB, 0xCC]]
      (by decide) (by decide)⟩

/-- C7: a buffer holding one validly encoded Handshake Response followed
by one or more extra bytes fails to decode with the trailing-data
condition (carrying the number of leftover bytes) instead of returning
the structure and ignoring the extra bytes. -/
theorem unmarshal_trailing_data (addr x extra : List Nat) (certs : List (List Nat))
    (haddr : Asn1.utf8Valid addr = true)
    (hsum : x.length + ((certs.map Asn1.encOctet).flatten).length + addr.length <
      2 ^ 31 - 100)
    (hextra : extra ≠ []) :
    ∃ der, Pdu.Marshal (NewResp addr (some x) (some certs)) = .ok der ∧
      Unmarshal (der ++ extra) = .error (.trailingData extra.length) := by
  refine ⟨_, marshal_newResp addr x certs, ?_⟩
  have hpdu := parsePduFields_newResp addr x certs haddr hsum
  have hb := newResp_body_len addr x certs hsum
  have hU := @asn1UnmarshalPdu_tlv _ extra _ hb hpdu
  simp only [Unmarshal, hU]
  rw [if_pos (List.length_pos.mpr hextra)]

theorem unmarshal_trailing_data_witness :
    Asn1.utf8Valid [104, 111, 115, 116] = true ∧
    ([1, 2, 3] : List Nat).length +
      ((([[0xAA], [0xBB, 0xCC]] : List (List Nat)).map Asn1.encOctet).flatten).length +
      ([104, 111, 115, 116] : List Nat).length < 2 ^ 31 - 100 ∧
    ([0x00] : List Nat) ≠ [] ∧
    (∃ der, Pdu.Marshal (NewResp [104, 111, 115, 116] (some [1, 2, 3])
        (some [[0xAA], [0xBB, 0xCC]])) = .ok der ∧
      Unmarshal (der ++ [0x00]) = .error (.trailingData ([0x00] : List Nat).length)) :=
  ⟨by decide, by decide, by decide,
    unmarshal_trailing_data [104, 111, 115, 116] [1, 2, 3] [0x00] [[0xAA], [0xBB, 0xCC]]
      (by decide) (by decide) (by decide)⟩

end Rdcleanpath
